import Mathlib

/-!
Shallow embedding of the linkzest URL-shortener backend (Node/Express over
MongoDB) and proofs about its link/folder lifecycle, identifier allocation,
redirect policy, analytics percentages and IP masking.

Modelling conventions, used throughout:
* A Mongo collection is a `List` of documents in insertion order; `findOne`
  is `List.find?`, `updateMany` is `List.map` guarded by the query predicate,
  `deleteOne {_id}` removes the documents with that id (ids are unique),
  `create` appends at the end.
* ObjectIds and user ids are `Nat`; timestamps are `Nat` milliseconds, so
  `new Date() > d` becomes a `Nat` comparison against a `now` parameter.
* JS strings are Lean `String`s, but all string manipulation is done through
  the structurally recursive char-list helpers below, because the library
  `String` functions do not reduce in the kernel.  The Mongo query
  `{$regex: new RegExp('^' ++ x ++ '$'), 'i'}` used for alias and folder-name
  checks is modelled as ASCII case-insensitive string equality (`lowerEq`):
  aliases are restricted to `[a-zA-Z0-9_-]`, where this is exact.
* The WHATWG `new URL(...)` validity test is an external platform collaborator
  and is passed to the handlers that use it as a parameter `urlOk`.
* JS `Math.round` on a non-negative quotient `c / t * 100` is `⌊(200c+t)/(2t)⌋`;
  the double-precision evaluation is modelled as exact rational arithmetic.
-/

/-- ASCII lower-casing of one character; models the `i` flag of the JS regexes
and `toLowerCase` on the alias/name alphabets. -/
def asciiLower (c : Char) : Char :=
  if 65 ≤ c.toNat ∧ c.toNat ≤ 90 then Char.ofNat (c.toNat + 32) else c

/-- Case-insensitive string equality: the semantics of the anchored
case-insensitive `$regex` checks on aliases and folder names. -/
def lowerEq (a b : String) : Bool :=
  a.data.map asciiLower == b.data.map asciiLower

/-- Worker for `jsSplit`: splits a char list at every separator, keeping
empty segments, like JS `String.prototype.split` with a one-char separator. -/
def splitGo (sep : Char) : List Char → List Char → List (List Char)
  | [], acc => [acc.reverse]
  | c :: rest, acc =>
    if c = sep then acc.reverse :: splitGo sep rest []
    else splitGo sep rest (c :: acc)

/-- JS `s.split(sep)` for a single-character separator. -/
def jsSplit (sep : Char) (s : String) : List String :=
  (splitGo sep s.data []).map (fun cs => String.mk cs)

/-- JS `s.trim()`: strips whitespace from both ends. -/
def jsTrim (s : String) : String :=
  String.mk (((s.data.dropWhile Char.isWhitespace).reverse.dropWhile
    Char.isWhitespace).reverse)

/-- One character of the alias alphabet `[a-zA-Z0-9_-]` (also the default
nanoid alphabet). -/
def isAliasChar (c : Char) : Bool := c.isAlphanum || c == '-' || c == '_'

/-- The alias-format regex `^[a-zA-Z0-9_-]{lo,hi}$`. -/
def validAlias (lo hi : Nat) (s : String) : Bool :=
  decide (lo ≤ s.data.length) && decide (s.data.length ≤ hi) &&
    s.data.all isAliasChar

/-- Tail of the scheme test: `[a-zA-Z\d+\-.]*` followed by `://`. -/
def schemeTail : List Char → Bool
  | [] => false
  | ':' :: '/' :: '/' :: _ => true
  | c :: rest =>
    if c.isAlphanum || c == '+' || c == '-' || c == '.' then schemeTail rest
    else false

/-- The URL-normalization test `/^[a-zA-Z][a-zA-Z\d+\-.]*:\/\//.test s`:
does `s` start with an explicit scheme? -/
def hasScheme (s : String) : Bool :=
  match s.data with
  | [] => false
  | c :: rest => c.isAlpha && schemeTail rest

/-- Insert an element into a list sorted by a descending `Nat` key; worker
for `sortByDesc`. -/
def insertByDesc (key : α → Nat) (a : α) : List α → List α
  | [] => [a]
  | b :: rest =>
    if key b < key a then a :: b :: rest else b :: insertByDesc key a rest

/-- Sort by a `Nat` key in descending order; models the Mongo
`.sort({k: -1})` stages and the JS `Array.prototype.sort` comparator
`(a, b) => key b - key a`.  (Tie order is not relied upon anywhere.) -/
def sortByDesc (key : α → Nat) : List α → List α
  | [] => []
  | a :: rest => insertByDesc key a (sortByDesc key rest)

/-- The URL normalization shared by the create/edit handlers: trim, then
prepend `https://` when the string carries no explicit scheme. -/
def normalizeURL (s : String) : String :=
  if hasScheme (jsTrim s) then jsTrim s else "https://" ++ jsTrim s

/-- JS `Math.ceil(a / b)` on non-negative integers. -/
def ceilDiv (a b : Nat) : Nat := (a + b - 1) / b

/-- A stored link document (`url.model.js`). -/
structure Link where
  id : Nat
  shortId : String
  title : Option String := none
  redirectURL : String := ""
  createdBy : Nat := 0
  folderId : Option Nat := none
  isActive : Bool := true
  expirationDate : Option Nat := none
  isDeleted : Bool := false
  deletedAt : Option Nat := none
deriving DecidableEq

/-- A stored folder document (`folder.model.js`); `urls` is the inverse
member-list edge kept by the older folder-handler variant. -/
structure Folder where
  id : Nat
  name : String
  description : String := ""
  createdBy : Nat := 0
  isDeleted : Bool := false
  deletedAt : Option Nat := none
  urls : List Nat := []
deriving DecidableEq

/-- A stored visit document (`visitHistory.model.js`). -/
structure Visit where
  id : Nat := 0
  urlId : Nat := 0
  visitorIP : Option String := none
  deviceType : Option String := none
  userAgent : Option String := none
  referrer : Option String := none
  country : Option String := none
  city : Option String := none
  timestamp : Nat := 0
deriving DecidableEq

/-- Visitor metadata already extracted from the HTTP request by
`getClientIP` / `parseDeviceType` / `parseReferrer` / `getGeolocation`
(header parsing and the geolocation lookup are external collaborators;
no claim depends on them, so the extracted record is a parameter). -/
structure VisitMeta where
  visitorIP : Option String := none
  deviceType : Option String := none
  userAgent : Option String := none
  referrer : Option String := none
  country : Option String := none
  city : Option String := none
deriving DecidableEq

/-- Response of a redirect dispatcher: HTTP status, redirect target when a
3xx is issued, and the visit document handed to the fire-and-forget save. -/
structure RedirectResult where
  status : Nat
  location : Option String := none
  visit : Option Visit := none
deriving DecidableEq

/-- Response of a link-collection operation: HTTP status plus the link
collection after the operation. -/
structure LinkOpResult where
  status : Nat
  links : List Link
deriving DecidableEq

/-- Response of a folder-collection operation: HTTP status, both collections
after the operation, and the modified-count reported in the JSON body. -/
structure FolderOpResult where
  status : Nat
  folders : List Folder
  links : List Link
  modifiedCount : Nat := 0
deriving DecidableEq

/-- `findOne` on links by exact `shortId` (the redirect lookup key). -/
def lookupByShortId (links : List Link) (sid : String) : Option Link :=
  links.find? (fun l => l.shortId == sid)

/-- Identifiers are globally unique, case-insensitively, across all links
regardless of owner or delete state (the invariant of claim C2). -/
def CIUnique (links : List Link) : Prop :=
  (links.map (fun l => l.shortId.data.map asciiLower)).Nodup

/-- Identifiers are globally unique under exact (case-sensitive) equality. -/
def ExactUnique (links : List Link) : Prop :=
  (links.map (fun l => l.shortId)).Nodup

instance : DecidablePred CIUnique := fun _ => List.nodupDecidable _

instance : DecidablePred ExactUnique := fun _ => List.nodupDecidable _

namespace UrlCtrl

/-!
`src/Backend/src/controller/url.controller.js`, the variant exporting
`handleCreateShortURL` / `handleEditUrl` / `handleSoftDeleteUrl` /
`handleRestoreUrl` / `handlePermanentDeleteUrl` (file lines 286-885).
-/

/-- `generateUniqueShortId` (lines 293-304): the retry loop draws nanoid
tokens and keeps the first one for which `URL.exists({shortId: generatedId})`
is false — an exact-match existence query.  The loop is unbounded in the
source; it is modelled over the list of tokens the generator produces, with
`none` standing for the diverging run in which no modelled draw is fresh. -/
def generateUniqueShortId (links : List Link) (draws : List String) :
    Option String :=
  draws.find? (fun c => !(links.any (fun l => l.shortId == c)))

/-- Request body of `POST /api/url`.  A missing `redirectURL` is the empty
string (both are falsy after `trim`); a missing or empty `customShortId`
takes the random branch. -/
structure CreateReq where
  title : Option String := none
  redirectURL : String := ""
  customShortId : Option String := none
  folderId : Option Nat := none
  isActive : Bool := true
  expirationDate : Option Nat := none
  neverExpire : Bool := false

/-- `title?.trim() || null`. -/
def normTitle (t : Option String) : Option String :=
  match t with
  | some s => if jsTrim s = "" then none else some (jsTrim s)
  | none => none

/-- Outcome of choosing `finalShortId` in `handleCreateShortURL`. -/
inductive AliasOutcome
  | invalid
  | conflict
  | ok (sid : String)
  | diverge
deriving DecidableEq

/-- The `finalShortId` selection of `handleCreateShortURL` (lines 350-374):
a truthy `customShortId` is validated against `^[a-zA-Z0-9_-]{3,20}$` (400 on
failure) and checked for a case-insensitive duplicate across the whole
collection (409 on conflict); otherwise the random generator runs
(`diverge` models its loop not terminating on the modelled draws). -/
def pickShortId (links : List Link) (custom : Option String)
    (draws : List String) : AliasOutcome :=
  match custom with
  | some a =>
    if a = "" then
      match generateUniqueShortId links draws with
      | some c => .ok c
      | none => .diverge
    else if !(validAlias 3 20 a) then .invalid
    else if links.any (fun l => lowerEq l.shortId a) then .conflict
    else .ok a
  | none =>
    match generateUniqueShortId links draws with
    | some c => .ok c
    | none => .diverge

/-- The folder-ownership validation of the create/edit handlers: when a
folder id is supplied, it must name an existing, non-deleted folder of the
caller. -/
def folderExists (folders : List Folder) (userId : Nat)
    (folderId : Option Nat) : Bool :=
  match folderId with
  | some fid =>
    (folders.find? (fun f =>
      f.id == fid && f.createdBy == userId && !f.isDeleted)).isSome
  | none => true

/-- The requested expiration of a create request: absent when `neverExpire`
is set. -/
def finalExpReq (req : CreateReq) : Option Nat :=
  if req.neverExpire then none else req.expirationDate

/-- `handleCreateShortURL` (lines 310-449).  `urlOk` is the WHATWG
`new URL(...)` validity collaborator, `draws` the nanoid stream, `newId` the
ObjectId minted for the inserted document, `now` the clock.  A `none` result
models the random-draw loop never terminating. -/
def handleCreateShortURL (urlOk : String → Bool) (links : List Link)
    (folders : List Folder) (userId : Nat) (req : CreateReq)
    (draws : List String) (newId : Nat) (now : Nat) : Option LinkOpResult :=
  if jsTrim req.redirectURL = "" then some { status := 400, links := links }
  else if !(urlOk (normalizeURL req.redirectURL)) then
    some { status := 400, links := links }
  else
    match pickShortId links req.customShortId draws with
    | .invalid => some { status := 400, links := links }
    | .conflict => some { status := 409, links := links }
    | .diverge => none
    | .ok finalShortId =>
      if !(folderExists folders userId req.folderId) then
        some { status := 404, links := links }
      else
        let newLink (e : Option Nat) : Link :=
          { id := newId, shortId := finalShortId,
            title := normTitle req.title,
            redirectURL := normalizeURL req.redirectURL,
            createdBy := userId, folderId := req.folderId,
            isActive := req.isActive, expirationDate := e,
            isDeleted := false, deletedAt := none }
        match finalExpReq req with
        | some d =>
          if d ≤ now then some { status := 400, links := links }
          else some { status := 201, links := links ++ [newLink (some d)] }
        | none => some { status := 201, links := links ++ [newLink none] }

/-- Request body of `PATCH /api/url/:shortId/edit`.  The outer `Option`
distinguishes an absent field (`undefined`) from an explicitly null/empty
one, exactly where the handler distinguishes them. -/
structure EditReq where
  title : Option (Option String) := none
  redirectURL : Option String := none
  newShortId : Option String := none
  folderId : Option (Option Nat) := none
  isActive : Option Bool := none
  expirationDate : Option (Option Nat) := none
  neverExpire : Bool := false

/-- `handleEditUrl` (lines 559-697).  Follows the source's update sequence:
find by `shortId`+owner+not-deleted, then title, destination URL,
`newShortId` (format check, then a case-insensitive duplicate search over the
whole collection that does not exclude the document being edited), folder
assignment, active flag, expiration, then `save`. -/
def handleEditUrl (urlOk : String → Bool) (links : List Link)
    (folders : List Folder) (userId : Nat) (shortId : String)
    (req : EditReq) : LinkOpResult :=
  match links.find? (fun l =>
      l.shortId == shortId && l.createdBy == userId && !l.isDeleted) with
  | none => { status := 404, links := links }
  | some urlDoc0 =>
    let d1 :=
      match req.title with
      | some t => { urlDoc0 with title := normTitle t }
      | none => urlDoc0
    let afterURL : Option Link :=
      match req.redirectURL with
      | some r =>
        if r = "" then some d1
        else if urlOk (normalizeURL r) then
          some { d1 with redirectURL := normalizeURL r }
        else none
      | none => some d1
    match afterURL with
    | none => { status := 400, links := links }
    | some d2 =>
      let doRename : Bool :=
        match req.newShortId with
        | some ns => ns != "" && ns != shortId
        | none => false
      let ns := (req.newShortId.getD "")
      if doRename && !(validAlias 3 20 ns) then { status := 400, links := links }
      else if doRename && links.any (fun l => lowerEq l.shortId ns) then
        { status := 409, links := links }
      else
        let d3 := if doRename then { d2 with shortId := ns } else d2
        let afterFolder : Option Link :=
          match req.folderId with
          | some (some fid) =>
            if folderExists folders userId (some fid) then
              some { d3 with folderId := some fid }
            else none
          | some none => some { d3 with folderId := none }
          | none => some d3
        match afterFolder with
        | none => { status := 404, links := links }
        | some d4 =>
          let d5 :=
            match req.isActive with
            | some b => { d4 with isActive := b }
            | none => d4
          let d6 :=
            if req.neverExpire then { d5 with expirationDate := none }
            else
              match req.expirationDate with
              | some (some e) => { d5 with expirationDate := some e }
              | some none => { d5 with expirationDate := none }
              | none => d5
          { status := 200,
            links := links.map (fun x => if x.id = urlDoc0.id then d6 else x) }

/-- `handleSoftDeleteUrl` (lines 760-793): move a non-deleted link owned by
the caller to the recycle bin by setting `isDeleted`/`deletedAt`. -/
def handleSoftDeleteUrl (links : List Link) (userId : Nat) (shortId : String)
    (now : Nat) : LinkOpResult :=
  match links.find? (fun l =>
      l.shortId == shortId && l.createdBy == userId && !l.isDeleted) with
  | none => { status := 404, links := links }
  | some urlDoc =>
    { status := 200,
      links := links.map (fun x =>
        if x.id = urlDoc.id then
          { urlDoc with isDeleted := true, deletedAt := some now }
        else x) }

/-- `handleRestoreUrl` (lines 799-838): restore a soft-deleted link owned by
the caller by clearing `isDeleted`/`deletedAt`. -/
def handleRestoreUrl (links : List Link) (userId : Nat) (shortId : String) :
    LinkOpResult :=
  match links.find? (fun l =>
      l.shortId == shortId && l.createdBy == userId && l.isDeleted) with
  | none => { status := 404, links := links }
  | some urlDoc =>
    { status := 200,
      links := links.map (fun x =>
        if x.id = urlDoc.id then
          { urlDoc with isDeleted := false, deletedAt := none }
        else x) }

/-- `handlePermanentDeleteUrl` (lines 844-875): hard-delete, permitted only
for links already in the recycle bin (`isDeleted: true` is part of the
`findOne` query); otherwise 404 and no write. -/
def handlePermanentDeleteUrl (links : List Link) (userId : Nat)
    (shortId : String) : LinkOpResult :=
  match links.find? (fun l =>
      l.shortId == shortId && l.createdBy == userId && l.isDeleted) with
  | none => { status := 404, links := links }
  | some urlDoc =>
    { status := 200, links := links.filter (fun x => x.id ≠ urlDoc.id) }

end UrlCtrl

namespace UrlCtrlV1

/-!
`src/Backend/src/controller/url.controller.js`, first concatenated variant
(file lines 1-286): the mode-based delete endpoint wired at
`DELETE /api/url/:shortId`.
-/

/-- `handleDeleteUrl` (lines 213-250): `mode` is `"trash"` or `"permanent"`
(anything else is 400).  The lookup does not filter on `isDeleted`, and the
`"permanent"` branch hard-deletes unconditionally. -/
def handleDeleteUrl (links : List Link) (userId : Nat) (shortId : String)
    (mode : String) (now : Nat) : LinkOpResult :=
  if mode != "trash" && mode != "permanent" then
    { status := 400, links := links }
  else
    match links.find? (fun l =>
        l.shortId == shortId && l.createdBy == userId) with
    | none => { status := 404, links := links }
    | some urlDoc =>
      if mode == "trash" then
        if urlDoc.isDeleted then { status := 400, links := links }
        else
          { status := 200,
            links := links.map (fun x =>
              if x.id = urlDoc.id then
                { urlDoc with isDeleted := true, deletedAt := some now }
              else x) }
      else
        { status := 200, links := links.filter (fun x => x.id ≠ urlDoc.id) }

end UrlCtrlV1

namespace UrlCtrlV4

/-!
`src/Backend/src/controller/url.controller.js`, last concatenated variant
(file lines 956-1239): the redirect dispatcher of that iteration.
-/

/-- `handleRedirect` (lines 1026-1066).  The lookup is by `shortId` alone;
then, in order: missing → 404, `isDeleted` → 410, `!isActive` → 403,
expired → 410, otherwise a visit is pushed and a 302 issued. -/
def handleRedirect (links : List Link) (shortId : String) (now : Nat) :
    RedirectResult :=
  match links.find? (fun l => l.shortId == shortId) with
  | none => { status := 404 }
  | some urlDoc =>
    if urlDoc.isDeleted then { status := 410 }
    else if !urlDoc.isActive then { status := 403 }
    else if (match urlDoc.expirationDate with
             | some e => decide (e < now)
             | none => false) then { status := 410 }
    else
      { status := 302, location := some urlDoc.redirectURL,
        visit := some { urlId := urlDoc.id, timestamp := now } }

end UrlCtrlV4

namespace AnalyticsCtrl

/-!
`src/Backend/src/controller/analyticsUrl.controller.js`: the export/analytics
segment (file lines 1-434) and the redirect-dispatcher segment (lines
434-728).
-/

/-- `anonymizeIP` (lines 409-429): mask the last two octets of a
dotted-quad, or everything after the first two groups of a colon-separated
address; a string in neither recognised shape is returned unchanged. -/
def anonymizeIP (ip : String) : String :=
  if ip = "" then "unknown"
  else if ip.data.contains '.' && (jsSplit '.' ip).length == 4 then
    (jsSplit '.' ip).getD 0 "" ++ "." ++ (jsSplit '.' ip).getD 1 "" ++ ".*.*"
  else if ip.data.contains ':' && decide (2 < (jsSplit ':' ip).length) then
    (jsSplit ':' ip).getD 0 "" ++ ":" ++ (jsSplit ':' ip).getD 1 "" ++ ":****"
  else ip

/-- The `visitorIP` field of one export row in `handleExportUrlAnalytics`
(line 292): `visit.visitorIP ? anonymizeIP(visit.visitorIP) : 'unknown'`. -/
def exportVisitorIP (stored : Option String) : String :=
  match stored with
  | some ip => if ip = "" then "unknown" else anonymizeIP ip
  | none => "unknown"

/-- `handleRedirect` (lines 442-526).  In order: blank id → 400; lookup by
trimmed `shortId` with `isDeleted: false` (missing or soft-deleted → 404);
`!isActive` → 410; expired → 410; destination fails the http/https URL
check → 400; otherwise a visit document is saved fire-and-forget and a 302
is issued.  `urlOk` is `isValidURL` (WHATWG parse + scheme check); `meta`
is the extracted visitor metadata. -/
def handleRedirect (urlOk : String → Bool) (links : List Link)
    (shortId : String) (now : Nat) (meta : VisitMeta) : RedirectResult :=
  if jsTrim shortId = "" then { status := 400 }
  else
    match links.find? (fun l =>
        l.shortId == jsTrim shortId && !l.isDeleted) with
    | none => { status := 404 }
    | some urlDoc =>
      if !urlDoc.isActive then { status := 410 }
      else if (match urlDoc.expirationDate with
               | some e => decide (e < now)
               | none => false) then { status := 410 }
      else if !(urlOk urlDoc.redirectURL) then { status := 400 }
      else
        { status := 302, location := some urlDoc.redirectURL,
          visit := some { urlId := urlDoc.id, visitorIP := meta.visitorIP,
                          deviceType := meta.deviceType,
                          userAgent := meta.userAgent,
                          referrer := meta.referrer, country := meta.country,
                          city := meta.city, timestamp := now } }

end AnalyticsCtrl

namespace AuthService

/-!
`src/Backend/src/service/auth.service.js`, analytics segment (file lines
1046-1501): charts aggregation, visit history, and the service-side
`anonymizeIP`.
-/

/-- The percentage formula of `handleGetChartsData` (lines 1264-1289):
`totalClicks > 0 ? Math.round(count / totalClicks * 100) : 0`. -/
def percentage (count total : Nat) : Nat :=
  if 0 < total then (200 * count + total) / (2 * total) else 0

/-- One formatted breakdown bucket: label, raw count, rounded percentage. -/
structure Bucket where
  label : String
  count : Nat
  percentage : Nat
deriving DecidableEq

/-- The `$group: {_id: key, count: {$sum: 1}}` stage: one `(key, count)`
pair per distinct key of the matched visits. -/
def groupCounts (key : Visit → String) (vs : List Visit) :
    List (String × Nat) :=
  ((vs.map key).dedup).map (fun k => (k, vs.countP (fun v => key v == k)))

/-- Attach the rounded percentage to a grouped pair. -/
def withPct (total : Nat) (p : String × Nat) : Bucket :=
  { label := p.1, count := p.2, percentage := percentage p.2 total }

/-- `$ifNull: ["$deviceType", "unknown"]`. -/
def deviceKey (v : Visit) : String := v.deviceType.getD "unknown"

/-- `$ifNull: ["$country", "unknown"]`. -/
def countryKey (v : Visit) : String := v.country.getD "unknown"

/-- `$ifNull: ["$city", "unknown"]`. -/
def cityKey (v : Visit) : String := v.city.getD "unknown"

/-- `$ifNull: ["$referrer", "direct"]`. -/
def referrerKey (v : Visit) : String := v.referrer.getD "direct"

/-- The `$match` stage of the charts pipeline: the link's visits, optionally
bounded by the requested date range. -/
def matchStage (urlId : Nat) (fromT toT : Option Nat) (vs : List Visit) :
    List Visit :=
  vs.filter (fun v => v.urlId == urlId &&
    (match fromT with | some a => decide (a ≤ v.timestamp) | none => true) &&
    (match toT with | some b => decide (v.timestamp ≤ b) | none => true))

/-- The `devices` array of the charts response: group by device type, sort
by count descending, attach percentages of `totalClicks` (the number of
matched visits). -/
def deviceStats (vs : List Visit) : List Bucket :=
  (sortByDesc (fun p => p.2) (groupCounts deviceKey vs)).map
    (withPct vs.length)

/-- The `countries` array: as `deviceStats` but `$limit: 10`. -/
def countryStats (vs : List Visit) : List Bucket :=
  ((sortByDesc (fun p => p.2) (groupCounts countryKey vs)).take 10).map
    (withPct vs.length)

/-- The `cities` array: as `deviceStats` but `$limit: 10`. -/
def cityStats (vs : List Visit) : List Bucket :=
  ((sortByDesc (fun p => p.2) (groupCounts cityKey vs)).take 10).map
    (withPct vs.length)

/-- The `referrers` array: as `deviceStats` but `$limit: 10`. -/
def referrerStats (vs : List Visit) : List Bucket :=
  ((sortByDesc (fun p => p.2) (groupCounts referrerKey vs)).take 10).map
    (withPct vs.length)

/-- `anonymizeIP` (lines 1476-1496), the service-side variant used by
`handleGetVisitHistory`: same masking as the controller-side one, but a
string in neither recognised shape yields `null` instead of the original. -/
def anonymizeIP (stored : Option String) : Option String :=
  match stored with
  | none => none
  | some ip =>
    if ip = "" then none
    else if ip.data.contains '.' && (jsSplit '.' ip).length == 4 then
      some ((jsSplit '.' ip).getD 0 "" ++ "." ++ (jsSplit '.' ip).getD 1 ""
        ++ ".*.*")
    else if ip.data.contains ':' && decide (2 < (jsSplit ':' ip).length) then
      some ((jsSplit ':' ip).getD 0 "" ++ ":" ++ (jsSplit ':' ip).getD 1 ""
        ++ ":****")
    else none

end AuthService

namespace FolderService

/-!
`src/Backend/src/service/auth.service.js`, folder segment (file lines
57-1045, the variant exporting `handleSoftDeleteFolder` and
`handleRestoreFolder`).  The `folderId.match(/^[0-9a-fA-F]{24}$/)` format
guard is not modelled: ObjectIds are `Nat` here.
-/

/-- `handleSoftDeleteFolder` (lines 480-532): flag the folder, then orphan
its member links with
`URL.updateMany({folderId, createdBy, isDeleted: false}, {$set: {folderId: null}})`,
reporting `result.modifiedCount` as `orphanedUrls`. -/
def handleSoftDeleteFolder (links : List Link) (folders : List Folder)
    (userId folderId now : Nat) : FolderOpResult :=
  match folders.find? (fun f =>
      f.id == folderId && f.createdBy == userId && !f.isDeleted) with
  | none => { status := 404, folders := folders, links := links }
  | some folder =>
    let touched := fun (l : Link) =>
      l.folderId == some folderId && l.createdBy == userId && !l.isDeleted
    { status := 200,
      folders := folders.map (fun g =>
        if g.id = folder.id then
          { folder with isDeleted := true, deletedAt := some now }
        else g),
      links := links.map (fun l =>
        if touched l then { l with folderId := none } else l),
      modifiedCount := (links.filter touched).length }

/-- `handleRestoreFolder` (lines 614-679): restore is blocked with 409 when
an active folder of the same owner (other than this one) has the same name
case-insensitively; otherwise both delete markers are cleared. -/
def handleRestoreFolder (links : List Link) (folders : List Folder)
    (userId folderId : Nat) : FolderOpResult :=
  match folders.find? (fun f =>
      f.id == folderId && f.createdBy == userId && f.isDeleted) with
  | none => { status := 404, folders := folders, links := links }
  | some folder =>
    if folders.any (fun g =>
        lowerEq g.name folder.name && g.createdBy == userId &&
        g.id != folderId && !g.isDeleted) then
      { status := 409, folders := folders, links := links }
    else
      { status := 200,
        folders := folders.map (fun g =>
          if g.id = folder.id then
            { folder with isDeleted := false, deletedAt := none }
          else g),
        links := links }

end FolderService

namespace FolderServiceV1

/-!
`src/Backend/src/service/auth.service.js`, older folder segment (the variant
exporting `handleDeleteFolder`, file lines 972-1037): the mode-based delete
endpoint that cascades via the folder's inverse `urls` member list.
-/

/-- `handleDeleteFolder` (lines 972-1037), `mode = "trash"` branch: flag the
folder, then soft-delete (not orphan) the member links listed in
`folder.urls` that are not already deleted; `mode = "permanent"`
hard-deletes the folder and its member links. -/
def handleDeleteFolder (links : List Link) (folders : List Folder)
    (userId folderId : Nat) (mode : String) (now : Nat) : FolderOpResult :=
  if mode != "trash" && mode != "permanent" then
    { status := 400, folders := folders, links := links }
  else
    match folders.find? (fun f =>
        f.id == folderId && f.createdBy == userId) with
    | none => { status := 404, folders := folders, links := links }
    | some folder =>
      let urlIds := folder.urls
      if mode == "trash" then
        if folder.isDeleted then
          { status := 400, folders := folders, links := links }
        else
          let touched := fun (l : Link) =>
            urlIds.contains l.id && l.createdBy == userId && !l.isDeleted
          { status := 200,
            folders := folders.map (fun g =>
              if g.id = folder.id then
                { folder with isDeleted := true, deletedAt := some now }
              else g),
            links := links.map (fun l =>
              if touched l then
                { l with isDeleted := true, deletedAt := some now }
              else l),
            modifiedCount := (links.filter touched).length }
      else
        if folder.isDeleted then
          { status := 200,
            folders := folders.filter (fun g => g.id ≠ folder.id),
            links := links.filter (fun l =>
              !(urlIds.contains l.id && l.createdBy == userId &&
                l.isDeleted)) }
        else
          { status := 200,
            folders := folders.filter (fun g => g.id ≠ folder.id),
            links := links.filter (fun l =>
              !(urlIds.contains l.id && l.createdBy == userId)) }

end FolderServiceV1

namespace RecycleBin

/-!
The recycle-bin coordinator (`src/unnamed/part_000`..., controller with
`handleListRecycleBinItems` / `handleRestoreItem` / `handlePermanentDeleteItem`;
`src/unnamed/part_010`).
-/

/-- One formatted recycle-bin item (`label` is the link's `shortId` or the
folder's `name`; the purely presentational `shortUrl`/`description`/
`createdAt` fields are not modelled). -/
structure RBItem where
  id : Nat
  itemType : String
  label : String
  deletedAt : Option Nat
deriving DecidableEq

/-- The recycle-bin listing response: items plus the `summary` and
`pagination` objects. -/
structure RBResult where
  status : Nat
  items : List RBItem
  totalUrls : Nat
  totalFolders : Nat
  total : Nat
  currentPage : Nat
  totalPages : Nat
  totalCount : Nat
  limit : Nat
deriving DecidableEq

/-- Format a deleted link for the listing. -/
def fmtUrl (l : Link) : RBItem :=
  { id := l.id, itemType := "url", label := l.shortId,
    deletedAt := l.deletedAt }

/-- Format a deleted folder for the listing. -/
def fmtFolder (f : Folder) : RBItem :=
  { id := f.id, itemType := "folder", label := f.name,
    deletedAt := f.deletedAt }

/-- `handleListRecycleBinItems` (part_010 lines 8-120).  `page` and `limit`
are the query parameters after `parseInt`.  Each per-type fetch applies the
caller's skip/limit only under its own type filter
(`.skip(type === "url" ? skip : 0).limit(type === "url" ? limitNum : 10)`);
without a type filter both fetches are capped at 10 and the two formatted
lists are merged and re-sorted by `deletedAt` descending.  The summary
counts always come from the unpaginated `countDocuments` queries. -/
def handleListRecycleBinItems (links : List Link) (folders : List Folder)
    (userId page limit : Nat) (type : Option String) : RBResult :=
  let pageNum := max 1 page
  let limitNum := min 100 (max 1 limit)
  let skip := (pageNum - 1) * limitNum
  let urlBranch := type == none || type == some "url"
  let folderBranch := type == none || type == some "folder"
  let urlMatches := links.filter (fun l => l.createdBy == userId && l.isDeleted)
  let folderMatches :=
    folders.filter (fun f => f.createdBy == userId && f.isDeleted)
  let deletedUrls :=
    if urlBranch then
      if type == some "url" then
        ((sortByDesc (fun l => l.deletedAt.getD 0) urlMatches).drop
          skip).take limitNum
      else (sortByDesc (fun l => l.deletedAt.getD 0) urlMatches).take 10
    else []
  let urlCount := if urlBranch then urlMatches.length else 0
  let deletedFolders :=
    if folderBranch then
      if type == some "folder" then
        ((sortByDesc (fun f => f.deletedAt.getD 0) folderMatches).drop
          skip).take limitNum
      else (sortByDesc (fun f => f.deletedAt.getD 0) folderMatches).take 10
    else []
  let folderCount := if folderBranch then folderMatches.length else 0
  let formattedUrls := deletedUrls.map fmtUrl
  let formattedFolders := deletedFolders.map fmtFolder
  let items :=
    match type with
    | none =>
      sortByDesc (fun it => it.deletedAt.getD 0)
        (formattedUrls ++ formattedFolders)
    | some t =>
      if t == "url" then formattedUrls
      else if t == "folder" then formattedFolders
      else []
  let totalCount :=
    match type with
    | some t =>
      if t == "url" then urlCount
      else if t == "folder" then folderCount
      else urlCount + folderCount
    | none => urlCount + folderCount
  { status := 200, items := items, totalUrls := urlCount,
    totalFolders := folderCount, total := urlCount + folderCount,
    currentPage := pageNum, totalPages := ceilDiv totalCount limitNum,
    totalCount := totalCount, limit := limitNum }

/-- `handleRestoreItem` (part_010 lines 126-240): dispatch restore by item
type; the folder branch re-runs the case-insensitive name-collision check
against active folders before clearing the delete markers. -/
def handleRestoreItem (links : List Link) (folders : List Folder)
    (userId itemId : Nat) (itemType : String) : FolderOpResult :=
  if itemType != "url" && itemType != "folder" then
    { status := 400, folders := folders, links := links }
  else if itemType == "url" then
    match links.find? (fun l =>
        l.id == itemId && l.createdBy == userId && l.isDeleted) with
    | none => { status := 404, folders := folders, links := links }
    | some urlDoc =>
      { status := 200, folders := folders,
        links := links.map (fun x =>
          if x.id = urlDoc.id then
            { urlDoc with isDeleted := false, deletedAt := none }
          else x) }
  else
    match folders.find? (fun f =>
        f.id == itemId && f.createdBy == userId && f.isDeleted) with
    | none => { status := 404, folders := folders, links := links }
    | some folderDoc =>
      if folders.any (fun g =>
          lowerEq g.name folderDoc.name && g.createdBy == userId &&
          g.id != itemId && !g.isDeleted) then
        { status := 409, folders := folders, links := links }
      else
        { status := 200,
          folders := folders.map (fun g =>
            if g.id = folderDoc.id then
              { folderDoc with isDeleted := false, deletedAt := none }
            else g),
          links := links }

end RecycleBin

/-! ## Helper lemmas -/

/-- `find?` returns the element when exactly one member satisfies the
predicate (all the Mongo `findOne` calls below are used this way, under a
uniqueness hypothesis on the queried key). -/
theorem find?_eq_of_unique {α} (p : α → Bool) (l : List α) (a : α)
    (ha : a ∈ l) (hpa : p a = true)
    (huniq : ∀ b ∈ l, p b = true → b = a) : l.find? p = some a := by
  induction l with
  | nil => cases ha
  | cons x xs ih =>
    by_cases hx : p x = true
    · have hxa : x = a := huniq x (List.mem_cons_self x xs) hx
      subst hxa
      simp [List.find?_cons_of_pos, hx]
    · have hxmem : a ∈ xs := by
        rcases List.mem_cons.mp ha with h | h
        · exact absurd (h ▸ hpa) hx
        · exact h
      rw [List.find?_cons_of_neg _ (by simpa using hx)]
      exact ih hxmem (fun b hb hpb => huniq b (List.mem_cons_of_mem _ hb) hpb)

/-- `insertByDesc` permutes consing. -/
theorem insertByDesc_perm {α} (key : α → Nat) (a : α) (l : List α) :
    List.Perm (insertByDesc key a l) (a :: l) := by
  induction l with
  | nil => simp [insertByDesc]
  | cons b rest ih =>
    simp only [insertByDesc]
    split
    · exact List.Perm.refl _
    · exact (ih.cons b).trans (List.Perm.swap a b rest)

/-- `sortByDesc` is a permutation. -/
theorem sortByDesc_perm {α} (key : α → Nat) (l : List α) :
    List.Perm (sortByDesc key l) l := by
  induction l with
  | nil => exact List.Perm.refl _
  | cons a rest ih =>
    exact (insertByDesc_perm key a (sortByDesc key rest)).trans (ih.cons a)

/-- A rounded bucket percentage never exceeds 100 when the bucket count is
at most the total. -/
theorem percentage_le_100 (c t : Nat) (h : c ≤ t) :
    AuthService.percentage c t ≤ 100 := by
  unfold AuthService.percentage
  split
  · rename_i ht
    have h2 : (200 * c + t) / (2 * t) < 101 :=
      (Nat.div_lt_iff_lt_mul (by omega)).mpr (by omega)
    omega
  · omega

/-- With no visits at all, every percentage is 0. -/
theorem percentage_total_zero (c : Nat) : AuthService.percentage c 0 = 0 := by
  simp [AuthService.percentage]

/-- Every grouped count is bounded by the number of matched visits. -/
theorem groupCounts_count_le (key : Visit → String) (vs : List Visit)
    (p : String × Nat) (hp : p ∈ AuthService.groupCounts key vs) :
    p.2 ≤ vs.length := by
  unfold AuthService.groupCounts at hp
  rcases List.mem_map.mp hp with ⟨k, _, rfl⟩
  exact List.countP_le_length _

/-- Buckets formatted by `withPct` from counts bounded by the total satisfy
the percentage contract. -/
theorem withPct_mem_facts (n : Nat) (l : List (String × Nat))
    (b : AuthService.Bucket) (hl : ∀ p ∈ l, p.2 ≤ n)
    (hb : b ∈ l.map (AuthService.withPct n)) :
    b.percentage = AuthService.percentage b.count n ∧ b.percentage ≤ 100 ∧
      (n = 0 → b.percentage = 0) := by
  rcases List.mem_map.mp hb with ⟨p, hp, rfl⟩
  exact ⟨rfl, percentage_le_100 _ _ (hl p hp),
    fun h => by simp [AuthService.withPct, h, percentage_total_zero]⟩

/-- Counts survive the sort stage. -/
theorem sorted_groupCounts_le (key : Visit → String) (vs : List Visit)
    (p : String × Nat)
    (hp : p ∈ sortByDesc (fun q => q.2) (AuthService.groupCounts key vs)) :
    p.2 ≤ vs.length :=
  groupCounts_count_le key vs p
    (((sortByDesc_perm (fun q => q.2) _).mem_iff).mp hp)

/-- Counts survive the sort and `$limit` stages. -/
theorem sorted_take_groupCounts_le (key : Visit → String) (vs : List Visit)
    (p : String × Nat)
    (hp : p ∈ (sortByDesc (fun q => q.2)
      (AuthService.groupCounts key vs)).take 10) :
    p.2 ≤ vs.length :=
  sorted_groupCounts_le key vs p (List.mem_of_mem_take hp)

/-- Claim C6 (amended): in every charts breakdown (device, country, city,
referrer), each bucket's percentage equals `round(count / total * 100)`
(0 when the total is 0), and each individual percentage is at most 100.
The original claim's bound "the percentages sum to at most 100 per
breakdown" fails (see the counterexample): the buckets are rounded
independently, so the sum can exceed 100. -/
theorem c6_percentage_contract (vs : List Visit) (b : AuthService.Bucket)
    (hb : b ∈ AuthService.deviceStats vs ∨ b ∈ AuthService.countryStats vs ∨
      b ∈ AuthService.cityStats vs ∨ b ∈ AuthService.referrerStats vs) :
    b.percentage = AuthService.percentage b.count vs.length ∧
      b.percentage ≤ 100 ∧ (vs.length = 0 → b.percentage = 0) := by
  rcases hb with hb | hb | hb | hb
  · exact withPct_mem_facts _ _ _
      (sorted_groupCounts_le AuthService.deviceKey vs) hb
  · exact withPct_mem_facts _ _ _
      (sorted_take_groupCounts_le AuthService.countryKey vs) hb
  · exact withPct_mem_facts _ _ _
      (sorted_take_groupCounts_le AuthService.cityKey vs) hb
  · exact withPct_mem_facts _ _ _
      (sorted_take_groupCounts_le AuthService.referrerKey vs) hb

/-- Witness for C6: a single mobile visit gives one device bucket with
count 1 and percentage round(1/1*100) = 100. -/
theorem c6_percentage_contract_witness :
    ({ label := "mobile", count := 1, percentage := 100 } :
        AuthService.Bucket).percentage =
      AuthService.percentage 1 1 ∧ (100 : Nat) ≤ 100 := by
  have h := c6_percentage_contract
    [{ urlId := 1, deviceType := some "mobile", timestamp := 0 }]
    { label := "mobile", count := 1, percentage := 100 }
    (Or.inl (by decide))
  exact ⟨h.1, h.2.1⟩

/-- Counterexample for C6's sum bound: six visits with six distinct device
classes each get `Math.round(1/6*100) = 17`, so the device breakdown's
percentages sum to 102 > 100. -/
theorem c6_percentage_sum_counterexample :
    ((AuthService.deviceStats
        [{ urlId := 1, deviceType := some "desktop", timestamp := 0 },
         { urlId := 1, deviceType := some "mobile", timestamp := 1 },
         { urlId := 1, deviceType := some "tablet", timestamp := 2 },
         { urlId := 1, deviceType := some "tv", timestamp := 3 },
         { urlId := 1, deviceType := some "bot", timestamp := 4 },
         { urlId := 1, deviceType := none, timestamp := 5 }]).map
      (fun b => b.percentage)).sum = 102 ∧
    ¬ ((AuthService.deviceStats
        [{ urlId := 1, deviceType := some "desktop", timestamp := 0 },
         { urlId := 1, deviceType := some "mobile", timestamp := 1 },
         { urlId := 1, deviceType := some "tablet", timestamp := 2 },
         { urlId := 1, deviceType := some "tv", timestamp := 3 },
         { urlId := 1, deviceType := some "bot", timestamp := 4 },
         { urlId := 1, deviceType := none, timestamp := 5 }]).map
      (fun b => b.percentage)).sum ≤ 100 := by
  constructor
  · decide
  · decide

/-- Splitting a separator-free segment yields a single piece. -/
theorem splitGo_of_not_mem (sep : Char) (xs : List Char) (acc : List Char)
    (h : sep ∉ xs) : splitGo sep xs acc = [acc.reverse ++ xs] := by
  induction xs generalizing acc with
  | nil => simp [splitGo]
  | cons c rest ih =>
    have hc : ¬ (c = sep) := fun e => h (e ▸ List.mem_cons_self c rest)
    rw [splitGo, if_neg hc, ih _ (fun hm => h (List.mem_cons_of_mem _ hm))]
    simp

/-- Splitting past a separator-free segment peels off one piece. -/
theorem splitGo_append (sep : Char) (xs rest acc : List Char)
    (h : sep ∉ xs) :
    splitGo sep (xs ++ sep :: rest) acc =
      (acc.reverse ++ xs) :: splitGo sep rest [] := by
  induction xs generalizing acc with
  | nil => simp [splitGo]
  | cons c tail ih =>
    have hc : ¬ (c = sep) := fun e => h (e ▸ List.mem_cons_self c tail)
    rw [List.cons_append, splitGo, if_neg hc,
      ih _ (fun hm => h (List.mem_cons_of_mem _ hm))]
    simp

/-- `splitGo` always produces at least one piece. -/
theorem splitGo_length_pos (sep : Char) (xs acc : List Char) :
    1 ≤ (splitGo sep xs acc).length := by
  induction xs generalizing acc with
  | nil => simp [splitGo]
  | cons c rest ih =>
    rw [splitGo]
    split
    · simp
    · exact ih _

/-- Claim C7 (amended): the two `anonymizeIP` variants mask every dotted-quad
(last two octets) and every colon-separated address with at least three
groups (everything after the first two groups) before the value is placed in
a response; but a stored string in neither recognised shape is returned
unchanged by the export path (`analyticsUrl.controller.js`), while the
visit-history path (`auth.service.js`) returns null for it.  The original
claim's "never returned unmasked for every possible stored visitorIP string"
fails on the export path (see the counterexample). -/
theorem c7_ip_masking :
    (∀ a b c d : String, '.' ∉ a.data → '.' ∉ b.data → '.' ∉ c.data →
      '.' ∉ d.data →
      AnalyticsCtrl.anonymizeIP (a ++ "." ++ b ++ "." ++ c ++ "." ++ d) =
        a ++ "." ++ b ++ ".*.*" ∧
      AuthService.anonymizeIP (some (a ++ "." ++ b ++ "." ++ c ++ "." ++ d)) =
        some (a ++ "." ++ b ++ ".*.*")) ∧
    (∀ g1 g2 t : String, ':' ∉ g1.data → ':' ∉ g2.data → '.' ∉ g1.data →
      '.' ∉ g2.data → '.' ∉ t.data →
      AnalyticsCtrl.anonymizeIP (g1 ++ ":" ++ g2 ++ ":" ++ t) =
        g1 ++ ":" ++ g2 ++ ":****" ∧
      AuthService.anonymizeIP (some (g1 ++ ":" ++ g2 ++ ":" ++ t)) =
        some (g1 ++ ":" ++ g2 ++ ":****")) ∧
    (∀ ip : String, ip ≠ "" →
      ¬ ('.' ∈ ip.data ∧ (jsSplit '.' ip).length = 4) →
      ¬ (':' ∈ ip.data ∧ 2 < (jsSplit ':' ip).length) →
      AnalyticsCtrl.anonymizeIP ip = ip ∧
      AuthService.anonymizeIP (some ip) = none) := by
  refine ⟨?_, ?_, ?_⟩
  · intro a b c d ha hb hc hd
    have hdata : (a ++ "." ++ b ++ "." ++ c ++ "." ++ d).data =
        a.data ++ '.' :: (b.data ++ '.' :: (c.data ++ '.' :: d.data)) := by
      simp [String.data_append]
    have hsplit : jsSplit '.' (a ++ "." ++ b ++ "." ++ c ++ "." ++ d) =
        [a, b, c, d] := by
      unfold jsSplit
      rw [hdata, splitGo_append _ _ _ _ ha, splitGo_append _ _ _ _ hb,
        splitGo_append _ _ _ _ hc, splitGo_of_not_mem _ _ _ hd]
      simp
    have hne : (a ++ "." ++ b ++ "." ++ c ++ "." ++ d) ≠ "" := by
      intro e
      rw [e] at hdata
      simp at hdata
    have hcont : (a ++ "." ++ b ++ "." ++ c ++ "." ++ d).data.contains '.' =
        true := by
      rw [hdata]
      simp [List.contains]
    constructor
    · simp [AnalyticsCtrl.anonymizeIP, hne, hcont, hsplit]
    · simp [AuthService.anonymizeIP, hne, hcont, hsplit]
  · intro g1 g2 t hg1 hg2 hd1 hd2 hdt
    have hdata : (g1 ++ ":" ++ g2 ++ ":" ++ t).data =
        g1.data ++ ':' :: (g2.data ++ ':' :: t.data) := by
      simp [String.data_append]
    have hsplit : jsSplit ':' (g1 ++ ":" ++ g2 ++ ":" ++ t) =
        g1 :: g2 :: (splitGo ':' t.data []).map (fun cs => String.mk cs) := by
      unfold jsSplit
      rw [hdata, splitGo_append _ _ _ _ hg1, splitGo_append _ _ _ _ hg2]
      simp
    have hne : (g1 ++ ":" ++ g2 ++ ":" ++ t) ≠ "" := by
      intro e
      rw [e] at hdata
      simp at hdata
    have hpos := splitGo_length_pos ':' t.data []
    have hnil : splitGo ':' t.data [] ≠ [] := by
      intro e
      rw [e] at hpos
      simp at hpos
    constructor
    · simp [AnalyticsCtrl.anonymizeIP, hne, hdata, hsplit, hd1, hd2, hdt,
        hpos, hnil]
    · simp [AuthService.anonymizeIP, hne, hdata, hsplit, hd1, hd2, hdt,
        hpos, hnil]
  · intro ip hne h4 h6
    constructor
    · simp [AnalyticsCtrl.anonymizeIP, hne, h4, h6]
    · simp [AuthService.anonymizeIP, hne, h4, h6]

/-- Witness for C7: concrete IPv4 and IPv6 addresses are masked by both
variants. -/
theorem c7_ip_masking_witness :
    AnalyticsCtrl.anonymizeIP "203.0.113.42" = "203.0.*.*" ∧
    AuthService.anonymizeIP (some "2001:db8:85a3:8d3:1319:8a2e:370:7348") =
      some "2001:db8:****" := by
  have h4 := c7_ip_masking.1 "203" "0" "113" "42"
    (by decide) (by decide) (by decide) (by decide)
  have h6 := c7_ip_masking.2.1 "2001" "db8" "85a3:8d3:1319:8a2e:370:7348"
    (by decide) (by decide) (by decide) (by decide) (by decide)
  refine ⟨?_, ?_⟩
  · have e1 : ("203" ++ "." ++ "0" ++ "." ++ "113" ++ "." ++ "42" : String) =
        "203.0.113.42" := by decide
    have e2 : ("203" ++ "." ++ "0" ++ ".*.*" : String) = "203.0.*.*" := by
      decide
    rw [e1, e2] at h4
    exact h4.1
  · have e1 : ("2001" ++ ":" ++ "db8" ++ ":" ++
        "85a3:8d3:1319:8a2e:370:7348" : String) =
        "2001:db8:85a3:8d3:1319:8a2e:370:7348" := by decide
    have e2 : ("2001" ++ ":" ++ "db8" ++ ":****" : String) = "2001:db8:****" :=
      by decide
    rw [e1, e2] at h6
    exact h6.2

/-- Counterexample for C7 as stated: the stored visitor IP string `"1.2.3"`
(three dot-separated parts — possible because the stored value comes from
the spoofable `x-forwarded-for` chain) is emitted verbatim, unmasked, in the
`visitorIP` column of the analytics export. -/
theorem c7_export_unmasked_counterexample :
    AnalyticsCtrl.exportVisitorIP (some "1.2.3") = "1.2.3" := by decide

/-- Claim C9: for a non-deleted link owned by the caller, soft-delete
followed by restore returns the link to `isDeleted = false`,
`deletedAt = null`, with `shortId`, `title`, `redirectURL`, `folderId`,
`isActive` and `expirationDate` untouched by either operation; when
`deletedAt` was already null, the collection is exactly as before. -/
theorem c9_softdelete_restore_identity (links : List Link) (u : Nat)
    (sid : String) (now : Nat) (l : Link) (hmem : l ∈ links)
    (hsid : l.shortId = sid) (hown : l.createdBy = u)
    (hnotdel : l.isDeleted = false)
    (huniq : ∀ x ∈ links, x.shortId = sid → x = l)
    (hids : (links.map (fun x => x.id)).Nodup) :
    (UrlCtrl.handleSoftDeleteUrl links u sid now).status = 200 ∧
    (UrlCtrl.handleRestoreUrl
      (UrlCtrl.handleSoftDeleteUrl links u sid now).links u sid).status =
      200 ∧
    (UrlCtrl.handleRestoreUrl
      (UrlCtrl.handleSoftDeleteUrl links u sid now).links u sid).links =
      links.map (fun x => if x.id = l.id then
        { l with isDeleted := false, deletedAt := none } else x) ∧
    lookupByShortId (UrlCtrl.handleRestoreUrl
      (UrlCtrl.handleSoftDeleteUrl links u sid now).links u sid).links sid =
      some { l with isDeleted := false, deletedAt := none } ∧
    (l.deletedAt = none →
      (UrlCtrl.handleRestoreUrl
        (UrlCtrl.handleSoftDeleteUrl links u sid now).links u sid).links =
        links) := by
  have find1 : links.find? (fun x =>
      x.shortId == sid && x.createdBy == u && !x.isDeleted) = some l := by
    apply find?_eq_of_unique _ _ _ hmem
    · simp [hsid, hown, hnotdel]
    · intro b hb hpb
      simp only [Bool.and_eq_true, beq_iff_eq] at hpb
      exact huniq b hb hpb.1.1
  have hr1 : UrlCtrl.handleSoftDeleteUrl links u sid now =
      { status := 200,
        links := links.map (fun x => if x.id = l.id then
          { l with isDeleted := true, deletedAt := some now } else x) } := by
    simp [UrlCtrl.handleSoftDeleteUrl, find1]
  have hupdmem : ({ l with isDeleted := true, deletedAt := some now } :
      Link) ∈ links.map (fun x => if x.id = l.id then
        { l with isDeleted := true, deletedAt := some now } else x) := by
    rcases List.mem_map.mp (List.mem_map_of_mem (fun x =>
      if x.id = l.id then
        { l with isDeleted := true, deletedAt := some now } else x) hmem)
      with ⟨x, hx, he⟩
    exact List.mem_map.mpr ⟨l, hmem, by simp⟩
  have find2 : (links.map (fun x => if x.id = l.id then
      { l with isDeleted := true, deletedAt := some now } else x)).find?
      (fun x => x.shortId == sid && x.createdBy == u && x.isDeleted) =
      some { l with isDeleted := true, deletedAt := some now } := by
    apply find?_eq_of_unique _ _ _ hupdmem
    · simp [hsid, hown]
    · intro b hb hpb
      rcases List.mem_map.mp hb with ⟨x, hx, rfl⟩
      by_cases hxi : x.id = l.id
      · simp [hxi]
      · simp only [if_neg hxi] at hpb ⊢
        simp only [Bool.and_eq_true, beq_iff_eq] at hpb
        exact absurd (congrArg Link.id (huniq x hx hpb.1.1)) hxi
  have hr2 : UrlCtrl.handleRestoreUrl
      (UrlCtrl.handleSoftDeleteUrl links u sid now).links u sid =
      { status := 200,
        links := links.map (fun x => if x.id = l.id then
          { l with isDeleted := false, deletedAt := none } else x) } := by
    rw [hr1]
    simp only [UrlCtrl.handleRestoreUrl, find2]
    congr 1
    rw [List.map_map]
    apply List.map_congr_left
    intro x _
    by_cases hxi : x.id = l.id
    · simp [hxi]
    · simp [hxi]
  have hfin : lookupByShortId (links.map (fun x => if x.id = l.id then
      { l with isDeleted := false, deletedAt := none } else x)) sid =
      some { l with isDeleted := false, deletedAt := none } := by
    apply find?_eq_of_unique _ _ _ (List.mem_map.mpr ⟨l, hmem, by simp⟩)
    · simp [hsid]
    · intro b hb hpb
      rcases List.mem_map.mp hb with ⟨x, hx, rfl⟩
      by_cases hxi : x.id = l.id
      · simp [hxi]
      · simp only [if_neg hxi] at hpb ⊢
        simp only [beq_iff_eq] at hpb
        exact absurd (congrArg Link.id (huniq x hx hpb)) hxi
  refine ⟨by rw [hr1], by rw [hr2], by rw [hr2], by rw [hr2]; exact hfin, ?_⟩
  intro hda
  rw [hr2]
  have hl : ({ l with isDeleted := false, deletedAt := none } : Link) = l := by
    cases l
    simp_all
  rw [hl]
  have : ∀ x ∈ links, (if x.id = l.id then l else x) = x := by
    intro x hx
    by_cases hxi : x.id = l.id
    · rw [if_pos hxi]
      exact (List.inj_on_of_nodup_map hids hx hmem hxi).symm
    · exact if_neg hxi
  rw [List.map_congr_left this]
  simp

/-- Witness for C9: a concrete owned, non-deleted link round-trips through
soft-delete and restore back to exactly the original collection. -/
theorem c9_softdelete_restore_identity_witness :
    (UrlCtrl.handleSoftDeleteUrl
      [{ id := 1, shortId := "abc", title := some "T",
         redirectURL := "https://example.com", createdBy := 7,
         folderId := some 4, isActive := true, expirationDate := some 1000,
         isDeleted := false, deletedAt := none }] 7 "abc" 99).status = 200 ∧
    (UrlCtrl.handleRestoreUrl
      (UrlCtrl.handleSoftDeleteUrl
        [{ id := 1, shortId := "abc", title := some "T",
           redirectURL := "https://example.com", createdBy := 7,
           folderId := some 4, isActive := true, expirationDate := some 1000,
           isDeleted := false, deletedAt := none }] 7 "abc" 99).links
      7 "abc").links =
      [{ id := 1, shortId := "abc", title := some "T",
         redirectURL := "https://example.com", createdBy := 7,
         folderId := some 4, isActive := true, expirationDate := some 1000,
         isDeleted := false, deletedAt := none }] := by
  have h := c9_softdelete_restore_identity
    [{ id := 1, shortId := "abc", title := some "T",
       redirectURL := "https://example.com", createdBy := 7,
       folderId := some 4, isActive := true, expirationDate := some 1000,
       isDeleted := false, deletedAt := none }] 7 "abc" 99
    { id := 1, shortId := "abc", title := some "T",
      redirectURL := "https://example.com", createdBy := 7,
      folderId := some 4, isActive := true, expirationDate := some 1000,
      isDeleted := false, deletedAt := none }
    (by decide) (by decide) (by decide) (by decide) (by decide) (by decide)
  exact ⟨h.1, h.2.2.2.2 (by decide)⟩

/-- Claim C3 (amended): the dedicated permanent-delete endpoint
(`handlePermanentDeleteUrl`) refuses a link that is not soft-deleted — 404
and no write — and hard-removes a soft-deleted link, after which no lookup
by its identifier returns anything.  The original claim also covered the
legacy mode-based delete endpoint (`handleDeleteUrl`, `mode: "permanent"`),
which hard-deletes regardless of the soft-delete state (see the
counterexample). -/
theorem c3_permanent_delete_guard (links : List Link) (u : Nat)
    (sid : String) (l : Link) (hmem : l ∈ links) (hsid : l.shortId = sid)
    (hown : l.createdBy = u)
    (huniq : ∀ x ∈ links, x.shortId = sid → x = l) :
    (l.isDeleted = false →
      (UrlCtrl.handlePermanentDeleteUrl links u sid).status = 404 ∧
      (UrlCtrl.handlePermanentDeleteUrl links u sid).links = links) ∧
    (l.isDeleted = true →
      (UrlCtrl.handlePermanentDeleteUrl links u sid).status = 200 ∧
      lookupByShortId
        (UrlCtrl.handlePermanentDeleteUrl links u sid).links sid = none ∧
      l ∉ (UrlCtrl.handlePermanentDeleteUrl links u sid).links) := by
  constructor
  · intro hnd
    have hnone : links.find? (fun x =>
        x.shortId == sid && x.createdBy == u && x.isDeleted) = none := by
      rw [List.find?_eq_none]
      intro x hx hpx
      simp only [Bool.and_eq_true, beq_iff_eq] at hpx
      have hxl : x = l := huniq x hx hpx.1.1
      rw [hxl] at hpx
      simp [hnd] at hpx
    simp [UrlCtrl.handlePermanentDeleteUrl, hnone]
  · intro hd
    have hfind : links.find? (fun x =>
        x.shortId == sid && x.createdBy == u && x.isDeleted) = some l := by
      apply find?_eq_of_unique _ _ _ hmem
      · simp [hsid, hown, hd]
      · intro b hb hpb
        simp only [Bool.and_eq_true, beq_iff_eq] at hpb
        exact huniq b hb hpb.1.1
    have hres : UrlCtrl.handlePermanentDeleteUrl links u sid =
        { status := 200, links := links.filter (fun x => x.id ≠ l.id) } := by
      simp [UrlCtrl.handlePermanentDeleteUrl, hfind]
    refine ⟨by rw [hres], ?_, ?_⟩
    · rw [hres]
      rw [lookupByShortId, List.find?_eq_none]
      intro x hx hpx
      simp only [beq_iff_eq] at hpx
      rcases List.mem_filter.mp hx with ⟨hxm, hxid⟩
      have hxl : x = l := huniq x hxm hpx
      rw [hxl] at hxid
      simp at hxid
    · rw [hres]
      intro hcon
      rcases List.mem_filter.mp hcon with ⟨_, hxid⟩
      simp at hxid

/-- Witness for C3: a non-deleted link is refused (404, collection
untouched); once soft-deleted, permanent delete removes it and a lookup by
its identifier finds nothing. -/
theorem c3_permanent_delete_guard_witness :
    ((UrlCtrl.handlePermanentDeleteUrl
        [{ id := 1, shortId := "abc", createdBy := 7, isDeleted := false }]
        7 "abc").status = 404 ∧
      (UrlCtrl.handlePermanentDeleteUrl
        [{ id := 1, shortId := "abc", createdBy := 7, isDeleted := false }]
        7 "abc").links =
        [{ id := 1, shortId := "abc", createdBy := 7, isDeleted := false }]) ∧
    ((UrlCtrl.handlePermanentDeleteUrl
        [{ id := 1, shortId := "abc", createdBy := 7, isDeleted := true,
           deletedAt := some 5 }] 7 "abc").status = 200 ∧
      lookupByShortId (UrlCtrl.handlePermanentDeleteUrl
        [{ id := 1, shortId := "abc", createdBy := 7, isDeleted := true,
           deletedAt := some 5 }] 7 "abc").links "abc" = none) := by
  have h1 := c3_permanent_delete_guard
    [{ id := 1, shortId := "abc", createdBy := 7, isDeleted := false }]
    7 "abc" { id := 1, shortId := "abc", createdBy := 7, isDeleted := false }
    (by decide) (by decide) (by decide) (by decide)
  have h2 := c3_permanent_delete_guard
    [{ id := 1, shortId := "abc", createdBy := 7, isDeleted := true,
       deletedAt := some 5 }]
    7 "abc"
    { id := 1, shortId := "abc", createdBy := 7, isDeleted := true,
      deletedAt := some 5 }
    (by decide) (by decide) (by decide) (by decide)
  exact ⟨h1.1 (by decide), (h2.2 (by decide)).1, (h2.2 (by decide)).2.1⟩

/-- Counterexample for C3 as stated: the legacy delete endpoint
(`handleDeleteUrl` with `mode: "permanent"`) hard-deletes a link whose
`isDeleted` is false — the request is not rejected and the record does not
remain stored. -/
theorem c3_mode_delete_counterexample :
    UrlCtrlV1.handleDeleteUrl
      [{ id := 1, shortId := "abc", createdBy := 7, isDeleted := false }]
      7 "abc" "permanent" 0 = { status := 200, links := [] } := by decide

/-- Claim C1 (amended): for a link that is soft-deleted, inactive or
expired, neither redirect dispatcher ever answers 2xx/3xx.  The
`analyticsUrl.controller.js` dispatcher behaves as the claim states: missing
or soft-deleted → 404, inactive → 410, expired → 410, as ordered mutually
exclusive terminal branches.  The `url.controller.js` dispatcher, also cited
by the claim, instead answers 410 for a soft-deleted link and 403 for an
inactive one (see the counterexample); expired is 410 there too. -/
theorem c1_redirect_policy (urlOk : String → Bool) (links : List Link)
    (sid : String) (now : Nat) (meta : VisitMeta) (l : Link)
    (hmem : l ∈ links) (hsid : l.shortId = sid) (htrim : jsTrim sid = sid)
    (hne : sid ≠ "") (huniq : ∀ x ∈ links, x.shortId = sid → x = l) :
    (l.isDeleted = true →
      (AnalyticsCtrl.handleRedirect urlOk links sid now meta).status = 404 ∧
      (UrlCtrlV4.handleRedirect links sid now).status = 410) ∧
    (l.isDeleted = false → l.isActive = false →
      (AnalyticsCtrl.handleRedirect urlOk links sid now meta).status = 410 ∧
      (UrlCtrlV4.handleRedirect links sid now).status = 403) ∧
    (∀ e, l.isDeleted = false → l.isActive = true →
      l.expirationDate = some e → e < now →
      (AnalyticsCtrl.handleRedirect urlOk links sid now meta).status = 410 ∧
      (UrlCtrlV4.handleRedirect links sid now).status = 410) ∧
    ((l.isDeleted = true ∨ l.isActive = false ∨
        (∃ e, l.expirationDate = some e ∧ e < now)) →
      400 ≤ (AnalyticsCtrl.handleRedirect urlOk links sid now meta).status ∧
      400 ≤ (UrlCtrlV4.handleRedirect links sid now).status) := by
  have hfindB : links.find? (fun x => x.shortId == sid) = some l := by
    apply find?_eq_of_unique _ _ _ hmem
    · simp [hsid]
    · intro b hb hpb
      simp only [beq_iff_eq] at hpb
      exact huniq b hb hpb
  have hdel : l.isDeleted = true →
      (AnalyticsCtrl.handleRedirect urlOk links sid now meta).status = 404 ∧
      (UrlCtrlV4.handleRedirect links sid now).status = 410 := by
    intro hd
    have hfindA : links.find? (fun x =>
        x.shortId == sid && !x.isDeleted) = none := by
      rw [List.find?_eq_none]
      intro x hx hpx
      simp only [Bool.and_eq_true, beq_iff_eq, Bool.not_eq_true'] at hpx
      have hxl : x = l := huniq x hx hpx.1
      rw [hxl] at hpx
      simp [hd] at hpx
    constructor
    · simp [AnalyticsCtrl.handleRedirect, htrim, hne, hfindA]
    · simp [UrlCtrlV4.handleRedirect, hfindB, hd]
  have hfindA2 : l.isDeleted = false → links.find? (fun x =>
      x.shortId == sid && !x.isDeleted) = some l := by
    intro hd
    apply find?_eq_of_unique _ _ _ hmem
    · simp [hsid, hd]
    · intro b hb hpb
      simp only [Bool.and_eq_true, beq_iff_eq] at hpb
      exact huniq b hb hpb.1
  have hinact : l.isDeleted = false → l.isActive = false →
      (AnalyticsCtrl.handleRedirect urlOk links sid now meta).status = 410 ∧
      (UrlCtrlV4.handleRedirect links sid now).status = 403 := by
    intro hd ha
    constructor
    · simp [AnalyticsCtrl.handleRedirect, htrim, hne, hfindA2 hd, ha]
    · simp [UrlCtrlV4.handleRedirect, hfindB, hd, ha]
  have hexp : ∀ e, l.isDeleted = false → l.isActive = true →
      l.expirationDate = some e → e < now →
      (AnalyticsCtrl.handleRedirect urlOk links sid now meta).status = 410 ∧
      (UrlCtrlV4.handleRedirect links sid now).status = 410 := by
    intro e hd ha hexp hlt
    constructor
    · simp [AnalyticsCtrl.handleRedirect, htrim, hne, hfindA2 hd, ha, hexp,
        hlt]
    · simp [UrlCtrlV4.handleRedirect, hfindB, hd, ha, hexp, hlt]
  refine ⟨hdel, hinact, hexp, ?_⟩
  intro hcase
  by_cases hd : l.isDeleted = true
  · rcases hdel hd with ⟨h1, h2⟩
    omega
  · have hd0 : l.isDeleted = false := by simpa using hd
    by_cases ha : l.isActive = false
    · rcases hinact hd0 ha with ⟨h1, h2⟩
      omega
    · have ha1 : l.isActive = true := by simpa using ha
      rcases hcase with hc | hc | hc
      · exact absurd hc hd
      · exact absurd hc ha
      · rcases hc with ⟨e, he, hlt⟩
        rcases hexp e hd0 ha1 he hlt with ⟨h1, h2⟩
        omega

/-- Witness for C1: on a soft-deleted link the analytics dispatcher answers
404 and the url-controller dispatcher 410; both are ≥ 400. -/
theorem c1_redirect_policy_witness :
    (AnalyticsCtrl.handleRedirect (fun _ => true)
      [{ id := 1, shortId := "abc", createdBy := 7, isDeleted := true,
         deletedAt := some 5 }] "abc" 0 {}).status = 404 ∧
    (UrlCtrlV4.handleRedirect
      [{ id := 1, shortId := "abc", createdBy := 7, isDeleted := true,
         deletedAt := some 5 }] "abc" 0).status = 410 := by
  have h := c1_redirect_policy (fun _ => true)
    [{ id := 1, shortId := "abc", createdBy := 7, isDeleted := true,
       deletedAt := some 5 }] "abc" 0 {}
    { id := 1, shortId := "abc", createdBy := 7, isDeleted := true,
      deletedAt := some 5 }
    (by decide) (by decide) (by decide) (by decide) (by decide)
  exact h.1 (by decide)

/-- Counterexample for C1 as stated: the `url.controller.js` dispatcher
answers 403, not the claimed 410 (Gone), for an inactive link. -/
theorem c1_inactive_status_counterexample :
    (UrlCtrlV4.handleRedirect
      [{ id := 1, shortId := "abc", createdBy := 7,
         isActive := false }] "abc" 0).status = 403 ∧
    (UrlCtrlV4.handleRedirect
      [{ id := 1, shortId := "abc", createdBy := 7,
         isActive := false }] "abc" 0).status ≠ 410 := by decide

/-- Claim C4 (amended): `handleSoftDeleteFolder` flags the folder
(`isDeleted`, `deletedAt`), clears `folderId` on exactly the N non-deleted
member links of the owner, reports N as the modified count, and afterwards
no non-deleted link references the folder.  The original claim also covered
the legacy `handleDeleteFolder` (`mode: "trash"`), which instead
soft-deletes the member links and leaves their `folderId` pointing at the
deleted folder (see the counterexample). -/
theorem c4_folder_softdelete_orphans (links : List Link)
    (folders : List Folder) (u fid now : Nat) (f : Folder)
    (hmem : f ∈ folders) (hfid : f.id = fid) (hown : f.createdBy = u)
    (hnd : f.isDeleted = false) (huniq : ∀ g ∈ folders, g.id = fid → g = f)
    (howner : ∀ l ∈ links, l.folderId = some fid → l.createdBy = u) :
    (FolderService.handleSoftDeleteFolder links folders u fid now).status =
      200 ∧
    (FolderService.handleSoftDeleteFolder links folders u fid
        now).modifiedCount =
      (links.filter (fun l => l.folderId == some fid && !l.isDeleted)).length ∧
    (∀ g ∈ (FolderService.handleSoftDeleteFolder links folders u fid
        now).folders, g.id = fid →
      g.isDeleted = true ∧ g.deletedAt = some now) ∧
    (∀ l ∈ (FolderService.handleSoftDeleteFolder links folders u fid
        now).links, l.isDeleted = false → l.folderId ≠ some fid) ∧
    (FolderService.handleSoftDeleteFolder links folders u fid now).links =
      links.map (fun l =>
        if l.folderId == some fid && l.createdBy == u && !l.isDeleted then
          { l with folderId := none } else l) := by
  have hfind : folders.find? (fun g =>
      g.id == fid && g.createdBy == u && !g.isDeleted) = some f := by
    apply find?_eq_of_unique _ _ _ hmem
    · simp [hfid, hown, hnd]
    · intro b hb hpb
      simp only [Bool.and_eq_true, beq_iff_eq] at hpb
      exact huniq b hb hpb.1.1
  have hres : FolderService.handleSoftDeleteFolder links folders u fid now =
      { status := 200,
        folders := folders.map (fun g =>
          if g.id = f.id then
            { f with isDeleted := true, deletedAt := some now } else g),
        links := links.map (fun l =>
          if l.folderId == some fid && l.createdBy == u && !l.isDeleted then
            { l with folderId := none } else l),
        modifiedCount := (links.filter (fun l =>
          l.folderId == some fid && l.createdBy == u &&
            !l.isDeleted)).length } := by
    simp [FolderService.handleSoftDeleteFolder, hfind]
  refine ⟨by rw [hres], ?_, ?_, ?_, by rw [hres]⟩
  · rw [hres]
    have : links.filter (fun l =>
        l.folderId == some fid && l.createdBy == u && !l.isDeleted) =
        links.filter (fun l => l.folderId == some fid && !l.isDeleted) := by
      apply List.filter_congr
      intro x hx
      by_cases hf : x.folderId = some fid
      · have hcb : x.createdBy = u := howner x hx hf
        simp [hf, hcb]
      · have hb : (x.folderId == some fid) = false := by
          simpa using hf
        simp [hb]
    rw [this]
  · rw [hres]
    intro g hg hgid
    rcases List.mem_map.mp hg with ⟨x, hx, rfl⟩
    by_cases hxi : x.id = f.id
    · simp [hxi]
    · rw [if_neg hxi] at hgid ⊢
      exact absurd (congrArg Folder.id (huniq x hx hgid)) hxi
  · rw [hres]
    intro l hl hld
    rcases List.mem_map.mp hl with ⟨x, hx, rfl⟩
    by_cases ht : (x.folderId == some fid && x.createdBy == u &&
        !x.isDeleted) = true
    · rw [if_pos ht] at hld ⊢
      simp
    · rw [if_neg ht] at hld ⊢
      intro hcon
      apply ht
      have hcb : x.createdBy = u := howner x hx hcon
      simp [hcon, hcb, hld]

/-- Witness for C4: a folder with one active member link and one already
soft-deleted member: soft-delete reports 1 orphaned URL, clears `folderId`
on the active member only, and leaves no active link referencing the
folder. -/
theorem c4_folder_softdelete_orphans_witness :
    (FolderService.handleSoftDeleteFolder
      [{ id := 10, shortId := "a1", createdBy := 7, folderId := some 1 },
       { id := 11, shortId := "a2", createdBy := 7, folderId := some 1,
         isDeleted := true, deletedAt := some 2 }]
      [{ id := 1, name := "work", createdBy := 7 }] 7 1 99).status = 200 ∧
    (FolderService.handleSoftDeleteFolder
      [{ id := 10, shortId := "a1", createdBy := 7, folderId := some 1 },
       { id := 11, shortId := "a2", createdBy := 7, folderId := some 1,
         isDeleted := true, deletedAt := some 2 }]
      [{ id := 1, name := "work", createdBy := 7 }] 7 1 99).modifiedCount =
      1 ∧
    (FolderService.handleSoftDeleteFolder
      [{ id := 10, shortId := "a1", createdBy := 7, folderId := some 1 },
       { id := 11, shortId := "a2", createdBy := 7, folderId := some 1,
         isDeleted := true, deletedAt := some 2 }]
      [{ id := 1, name := "work", createdBy := 7 }] 7 1 99).links =
      [{ id := 10, shortId := "a1", createdBy := 7, folderId := none },
       { id := 11, shortId := "a2", createdBy := 7, folderId := some 1,
         isDeleted := true, deletedAt := some 2 }] := by
  have h := c4_folder_softdelete_orphans
    [{ id := 10, shortId := "a1", createdBy := 7, folderId := some 1 },
     { id := 11, shortId := "a2", createdBy := 7, folderId := some 1,
       isDeleted := true, deletedAt := some 2 }]
    [{ id := 1, name := "work", createdBy := 7 }] 7 1 99
    { id := 1, name := "work", createdBy := 7 }
    (by decide) (by decide) (by decide) (by decide) (by decide) (by decide)
  refine ⟨h.1, ?_, ?_⟩
  · rw [h.2.1]
    decide
  · rw [h.2.2.2.2]
    decide

/-- Counterexample for C4 as stated: the legacy `handleDeleteFolder`
(`mode: "trash"`) on a folder with one active member link soft-deletes the
link instead of clearing its `folderId` — zero links end with `folderId`
cleared, and the (now deleted) link still points at the deleted folder. -/
theorem c4_cascade_counterexample :
    FolderServiceV1.handleDeleteFolder
      [{ id := 10, shortId := "a1", createdBy := 7, folderId := some 1 }]
      [{ id := 1, name := "work", createdBy := 7, urls := [10] }]
      7 1 "trash" 99 =
      { status := 200,
        folders := [{ id := 1, name := "work", createdBy := 7,
                      isDeleted := true, deletedAt := some 99,
                      urls := [10] }],
        links := [{ id := 10, shortId := "a1", createdBy := 7,
                    folderId := some 1, isDeleted := true,
                    deletedAt := some 99 }],
        modifiedCount := 1 } ∧
    ((FolderServiceV1.handleDeleteFolder
      [{ id := 10, shortId := "a1", createdBy := 7, folderId := some 1 }]
      [{ id := 1, name := "work", createdBy := 7, urls := [10] }]
      7 1 "trash" 99).links.filter
        (fun l => l.folderId == (none : Option Nat))).length = 0 := by
  constructor
  · decide
  · decide

/-- Claim C5: restoring a soft-deleted folder whose name case-insensitively
equals the name of another active folder of the same owner is rejected with
409 and changes nothing; with no such collision, restore clears both
`isDeleted` and `deletedAt` and leaves the other fields intact. -/
theorem c5_folder_restore_conflict (links : List Link)
    (folders : List Folder) (u fid : Nat) (f : Folder) (hmem : f ∈ folders)
    (hfid : f.id = fid) (hown : f.createdBy = u) (hdel : f.isDeleted = true)
    (huniq : ∀ g ∈ folders, g.id = fid → g = f) :
    ((∃ g ∈ folders, g.createdBy = u ∧ g.isDeleted = false ∧ g.id ≠ fid ∧
        lowerEq g.name f.name = true) →
      (FolderService.handleRestoreFolder links folders u fid).status = 409 ∧
      (FolderService.handleRestoreFolder links folders u fid).folders =
        folders) ∧
    ((∀ g ∈ folders, g.createdBy = u → g.isDeleted = false → g.id ≠ fid →
        lowerEq g.name f.name = false) →
      (FolderService.handleRestoreFolder links folders u fid).status = 200 ∧
      (FolderService.handleRestoreFolder links folders u fid).folders =
        folders.map (fun g => if g.id = f.id then
          { f with isDeleted := false, deletedAt := none } else g)) := by
  have hfind : folders.find? (fun g =>
      g.id == fid && g.createdBy == u && g.isDeleted) = some f := by
    apply find?_eq_of_unique _ _ _ hmem
    · simp [hfid, hown, hdel]
    · intro b hb hpb
      simp only [Bool.and_eq_true, beq_iff_eq] at hpb
      exact huniq b hb hpb.1.1
  constructor
  · intro hconf
    rcases hconf with ⟨g, hg, hcb, hnd, hne, hle⟩
    have hany : folders.any (fun g => lowerEq g.name f.name &&
        g.createdBy == u && g.id != fid && !g.isDeleted) = true := by
      rw [List.any_eq_true]
      exact ⟨g, hg, by simp [hle, hcb, hnd, hne]⟩
    constructor
    · simp [FolderService.handleRestoreFolder, hfind, hany]
    · simp [FolderService.handleRestoreFolder, hfind, hany]
  · intro hno
    have hany : folders.any (fun g => lowerEq g.name f.name &&
        g.createdBy == u && g.id != fid && !g.isDeleted) = false := by
      rcases Bool.eq_false_or_eq_true (folders.any (fun g =>
        lowerEq g.name f.name && g.createdBy == u && g.id != fid &&
          !g.isDeleted)) with hc | hc
      case inr => exact hc
      exfalso
      rcases List.any_eq_true.mp hc with ⟨g, hg, hp⟩
      simp only [Bool.and_eq_true, beq_iff_eq, bne_iff_ne,
        Bool.not_eq_true'] at hp
      obtain ⟨⟨⟨h1, h2⟩, h3⟩, h4⟩ := hp
      exact absurd h1 (by simp [hno g hg h2 h4 h3])
    constructor
    · simp [FolderService.handleRestoreFolder, hfind, hany]
    · simp [FolderService.handleRestoreFolder, hfind, hany]

/-- Witness for C5: restoring the deleted folder "Docs" while an active
folder "docs" exists for the same owner is rejected with 409 and the
collection is unchanged; once the collision is absent (different owner),
restore succeeds and clears the markers. -/
theorem c5_folder_restore_conflict_witness :
    ((FolderService.handleRestoreFolder []
        [{ id := 1, name := "Docs", createdBy := 7, isDeleted := true,
           deletedAt := some 5 },
         { id := 2, name := "docs", createdBy := 7 }] 7 1).status = 409 ∧
      (FolderService.handleRestoreFolder []
        [{ id := 1, name := "Docs", createdBy := 7, isDeleted := true,
           deletedAt := some 5 },
         { id := 2, name := "docs", createdBy := 7 }] 7 1).folders =
        [{ id := 1, name := "Docs", createdBy := 7, isDeleted := true,
           deletedAt := some 5 },
         { id := 2, name := "docs", createdBy := 7 }]) ∧
    ((FolderService.handleRestoreFolder []
        [{ id := 1, name := "Docs", createdBy := 7, isDeleted := true,
           deletedAt := some 5 },
         { id := 2, name := "docs", createdBy := 9 }] 7 1).status = 200 ∧
      (FolderService.handleRestoreFolder []
        [{ id := 1, name := "Docs", createdBy := 7, isDeleted := true,
           deletedAt := some 5 },
         { id := 2, name := "docs", createdBy := 9 }] 7 1).folders =
        [{ id := 1, name := "Docs", createdBy := 7 },
         { id := 2, name := "docs", createdBy := 9 }]) := by
  have h1 := c5_folder_restore_conflict []
    [{ id := 1, name := "Docs", createdBy := 7, isDeleted := true,
       deletedAt := some 5 },
     { id := 2, name := "docs", createdBy := 7 }] 7 1
    { id := 1, name := "Docs", createdBy := 7, isDeleted := true,
      deletedAt := some 5 }
    (by decide) (by decide) (by decide) (by decide) (by decide)
  have h2 := c5_folder_restore_conflict []
    [{ id := 1, name := "Docs", createdBy := 7, isDeleted := true,
       deletedAt := some 5 },
     { id := 2, name := "docs", createdBy := 9 }] 7 1
    { id := 1, name := "Docs", createdBy := 7, isDeleted := true,
      deletedAt := some 5 }
    (by decide) (by decide) (by decide) (by decide) (by decide)
  have hc1 := h1.1 ⟨{ id := 2, name := "docs", createdBy := 7 },
    by decide, by decide, by decide, by decide, by decide⟩
  have hc2 := h2.2 (by decide)
  refine ⟨⟨hc1.1, hc1.2⟩, hc2.1, ?_⟩
  rw [hc2.2]
  decide

/-- Claim C8: the code is wrong here.  The rename branch of `handleEditUrl`
runs its case-insensitive duplicate search over the whole collection
without excluding the document being edited, so renaming the alias
`"promo1"` to its own case variant `"PROMO1"` — whose only case-insensitive
match is the link itself — is rejected with 409 ("Short ID already in use")
and the alias stays unchanged, although the spec requires the check to
exclude the current record and the rename to succeed. -/
theorem c8_self_rename_conflict :
    UrlCtrl.handleEditUrl (fun _ => true)
      [{ id := 1, shortId := "promo1", redirectURL := "https://example.com",
         createdBy := 7 }] [] 7 "promo1"
      { newShortId := some "PROMO1" } =
      { status := 409,
        links := [{ id := 1, shortId := "promo1",
                    redirectURL := "https://example.com",
                    createdBy := 7 }] } := by decide

/-- Appending a document whose key is fresh preserves key-uniqueness. -/
theorem key_nodup_append {β} (key : Link → β) (links : List Link) (nl : Link)
    (h : (links.map key).Nodup) (hf : ∀ l ∈ links, key l ≠ key nl) :
    (((links ++ [nl]).map key)).Nodup := by
  rw [List.map_append, List.nodup_append]
  refine ⟨h, by simp, ?_⟩
  intro a ha hb
  rcases List.mem_map.mp ha with ⟨l, hl, rfl⟩
  simp only [List.map_cons, List.map_nil, List.mem_singleton] at hb
  exact hf l hl hb

/-- Replacing the one document with a given id by a document whose key is
fresh preserves key-uniqueness. -/
theorem key_nodup_replace {β} (key : Link → β) (links : List Link)
    (doc rep : Link) (hdoc : doc ∈ links)
    (hids : (links.map (fun x => x.id)).Nodup)
    (h : (links.map key).Nodup)
    (hf : ∀ l ∈ links, key l ≠ key rep) :
    ((links.map (fun x => if x.id = doc.id then rep else x)).map key).Nodup
    := by
  rcases List.append_of_mem hdoc with ⟨s, t, rfl⟩
  rw [List.map_append, List.map_cons, List.nodup_middle,
    List.nodup_cons] at hids
  have hsid : ∀ x ∈ s, x.id ≠ doc.id := by
    intro x hx he
    exact hids.1 (List.mem_append.mpr (Or.inl
      (List.mem_map.mpr ⟨x, hx, he⟩)))
  have htid : ∀ x ∈ t, x.id ≠ doc.id := by
    intro x hx he
    exact hids.1 (List.mem_append.mpr (Or.inr
      (List.mem_map.mpr ⟨x, hx, he⟩)))
  have hmap : (s ++ doc :: t).map (fun x =>
      if x.id = doc.id then rep else x) = s ++ rep :: t := by
    rw [List.map_append, List.map_cons, if_pos rfl]
    congr 1
    · have hc : ∀ x ∈ s, (fun x =>
          if x.id = doc.id then rep else x) x = id x := by
        intro x hx
        exact if_neg (hsid x hx)
      rw [List.map_congr_left hc, List.map_id]
    · congr 1
      have hc : ∀ x ∈ t, (fun x =>
          if x.id = doc.id then rep else x) x = id x := by
        intro x hx
        exact if_neg (htid x hx)
      rw [List.map_congr_left hc, List.map_id]
  rw [hmap, List.map_append, List.map_cons, List.nodup_middle,
    List.nodup_cons]
  rw [List.map_append, List.map_cons, List.nodup_middle,
    List.nodup_cons] at h
  refine ⟨?_, h.2⟩
  intro hc
  rw [← List.map_append] at hc
  rcases List.mem_map.mp hc with ⟨l, hl, he⟩
  have hlm : l ∈ s ++ doc :: t := by
    rcases List.mem_append.mp hl with hx | hx
    · exact List.mem_append.mpr (Or.inl hx)
    · exact List.mem_append.mpr (Or.inr (List.mem_cons_of_mem _ hx))
  exact hf l hlm he

/-- Inversion: a 201 from `handleCreateShortURL` means the identifier
selection returned `ok` and the response collection is the old one with one
new document appended, carrying the selected identifier. -/
theorem create_201_shape (urlOk : String → Bool) (links : List Link)
    (folders : List Folder) (u : Nat) (req : UrlCtrl.CreateReq)
    (draws : List String) (newId now : Nat) (r : LinkOpResult)
    (h : UrlCtrl.handleCreateShortURL urlOk links folders u req draws newId
      now = some r) (hs : r.status = 201) :
    ∃ nl : Link,
      UrlCtrl.pickShortId links req.customShortId draws =
        UrlCtrl.AliasOutcome.ok nl.shortId ∧
      r.links = links ++ [nl] := by
  unfold UrlCtrl.handleCreateShortURL at h
  dsimp only at h
  split at h
  · obtain rfl := Option.some.inj h
    simp at hs
  · split at h
    · obtain rfl := Option.some.inj h
      simp at hs
    · split at h
      · obtain rfl := Option.some.inj h
        simp at hs
      · obtain rfl := Option.some.inj h
        simp at hs
      · simp at h
      · rename_i sid hpick
        split at h
        · obtain rfl := Option.some.inj h
          simp at hs
        · split at h
          · split at h
            · obtain rfl := Option.some.inj h
              simp at hs
            · obtain rfl := Option.some.inj h
              exact ⟨_, hpick, rfl⟩
          · obtain rfl := Option.some.inj h
            exact ⟨_, hpick, rfl⟩

/-- Inversion: a 200 from a rename-only `handleEditUrl` request means the
collection-wide case-insensitive duplicate search came back empty and the
response collection is the old one with the found document's alias
replaced. -/
theorem edit_rename_200_shape (urlOk : String → Bool) (links : List Link)
    (folders : List Folder) (u : Nat) (sid ns : String) (r : LinkOpResult)
    (hne : ns ≠ "") (hdiff : ns ≠ sid)
    (h : UrlCtrl.handleEditUrl urlOk links folders u sid
      { newShortId := some ns } = r) (hs : r.status = 200) :
    links.any (fun l => lowerEq l.shortId ns) = false ∧
    ∃ doc, doc ∈ links ∧
      r.links = links.map (fun x => if x.id = doc.id then
        { doc with shortId := ns } else x) := by
  unfold UrlCtrl.handleEditUrl at h
  dsimp only at h
  have hdr : (ns != "" && ns != sid) = true := by simp [hne, hdiff]
  rw [hdr] at h
  simp only [Bool.true_and] at h
  split at h
  · obtain rfl := h
    simp at hs
  · rename_i doc hfind
    split at h
    · obtain rfl := h
      simp at hs
    · split at h
      · obtain rfl := h
        simp at hs
      · rename_i hany
        obtain rfl := h
        refine ⟨by simpa using hany, doc,
          List.mem_of_find?_eq_some hfind, rfl⟩

/-- The random generator only returns identifiers with no exact-match
duplicate (`URL.exists({shortId})`). -/
theorem generate_fresh (links : List Link) (draws : List String) (c : String)
    (h : UrlCtrl.generateUniqueShortId links draws = some c) :
    ∀ l ∈ links, l.shortId ≠ c := by
  intro l hl he
  have hp := List.find?_some h
  simp only [Bool.not_eq_true', List.any_eq_false, beq_iff_eq] at hp
  exact hp l hl he

/-- A case-insensitive mismatch on every stored alias gives key freshness
for the `CIUnique` key. -/
theorem lowerEq_false_key (a b : String) (h : lowerEq a b = false) :
    a.data.map asciiLower ≠ b.data.map asciiLower := by
  intro he
  rw [lowerEq, he] at h
  simp at h

/-- Claim C2 (amended): creating a link with a custom alias preserves
case-insensitive global uniqueness of identifiers (the duplicate check
spans all links regardless of owner or delete state), and so does a
successful alias rename; every successful creation — custom or random —
preserves exact (case-sensitive) uniqueness.  The original claim also
asserted case-insensitive preservation for the random draw, but
`generateUniqueShortId` checks only exact equality
(`URL.exists({shortId})`), so a random draw can coexist with a stored
case variant of itself (see the counterexample). -/
theorem c2_alias_uniqueness :
    (∀ (urlOk : String → Bool) (links : List Link) (folders : List Folder)
      (u : Nat) (a : String) (req : UrlCtrl.CreateReq) (draws : List String)
      (newId now : Nat) (r : LinkOpResult),
      CIUnique links → req.customShortId = some a → a ≠ "" →
      UrlCtrl.handleCreateShortURL urlOk links folders u req draws newId
        now = some r →
      r.status = 201 → CIUnique r.links) ∧
    (∀ (urlOk : String → Bool) (links : List Link) (folders : List Folder)
      (u : Nat) (req : UrlCtrl.CreateReq) (draws : List String)
      (newId now : Nat) (r : LinkOpResult),
      ExactUnique links →
      UrlCtrl.handleCreateShortURL urlOk links folders u req draws newId
        now = some r →
      r.status = 201 → ExactUnique r.links) ∧
    (∀ (urlOk : String → Bool) (links : List Link) (folders : List Folder)
      (u : Nat) (sid ns : String) (r : LinkOpResult),
      CIUnique links → (links.map (fun x => x.id)).Nodup → ns ≠ "" →
      ns ≠ sid →
      UrlCtrl.handleEditUrl urlOk links folders u sid
        { newShortId := some ns } = r →
      r.status = 200 → CIUnique r.links) := by
  have hlow : ∀ (links : List Link) (a : String),
      links.any (fun l => lowerEq l.shortId a) = false →
      ∀ l ∈ links, lowerEq l.shortId a = false := by
    intro links a hany l hl
    cases hp : lowerEq l.shortId a
    · rfl
    · rw [List.any_eq_true.mpr ⟨l, hl, hp⟩] at hany
      cases hany
  refine ⟨?_, ?_, ?_⟩
  · intro urlOk links folders u a req draws newId now r hciu hcs ha h hs
    obtain ⟨nl, hpick, hlinks⟩ :=
      create_201_shape urlOk links folders u req draws newId now r h hs
    rw [hcs] at hpick
    unfold UrlCtrl.pickShortId at hpick
    dsimp only at hpick
    rw [if_neg ha] at hpick
    split at hpick
    · cases hpick
    · split at hpick
      · cases hpick
      · rename_i hany
        obtain hsid := (UrlCtrl.AliasOutcome.ok.inj hpick).symm
        rw [hlinks]
        unfold CIUnique
        apply key_nodup_append _ _ _ hciu
        intro l hl
        rw [hsid]
        exact lowerEq_false_key _ _
          (hlow links a (by simpa using hany) l hl)
  · intro urlOk links folders u req draws newId now r hexa h hs
    obtain ⟨nl, hpick, hlinks⟩ :=
      create_201_shape urlOk links folders u req draws newId now r h hs
    have hfresh : ∀ l ∈ links, l.shortId ≠ nl.shortId := by
      cases hcs : req.customShortId with
      | some a =>
        rw [hcs] at hpick
        unfold UrlCtrl.pickShortId at hpick
        dsimp only at hpick
        by_cases ha : a = ""
        · rw [if_pos ha] at hpick
          split at hpick
          · rename_i c hgen
            obtain rfl := UrlCtrl.AliasOutcome.ok.inj hpick
            exact generate_fresh links draws _ hgen
          · cases hpick
        · rw [if_neg ha] at hpick
          split at hpick
          · cases hpick
          · split at hpick
            · cases hpick
            · rename_i hany
              obtain hsid := (UrlCtrl.AliasOutcome.ok.inj hpick).symm
              intro l hl he
              have hfa := hlow links a (by simpa using hany) l hl
              rw [he, hsid] at hfa
              simp [lowerEq] at hfa
      | none =>
        rw [hcs] at hpick
        unfold UrlCtrl.pickShortId at hpick
        dsimp only at hpick
        split at hpick
        · rename_i c hgen
          obtain rfl := UrlCtrl.AliasOutcome.ok.inj hpick
          exact generate_fresh links draws _ hgen
        · cases hpick
    rw [hlinks]
    unfold ExactUnique
    exact key_nodup_append _ _ _ hexa hfresh
  · intro urlOk links folders u sid ns r hciu hids hne hdiff h hs
    obtain ⟨hany, doc, hdoc, hlinks⟩ :=
      edit_rename_200_shape urlOk links folders u sid ns r hne hdiff h hs
    rw [hlinks]
    unfold CIUnique
    apply key_nodup_replace _ _ _ _ hdoc hids hciu
    intro l hl
    exact lowerEq_false_key _ _ (hlow links ns hany l hl)

/-- Witness for C2: creating the custom alias "promo1" into an empty
collection yields a case-insensitively unique collection. -/
theorem c2_alias_uniqueness_witness :
    CIUnique [{ id := 2, shortId := "promo1", title := none,
                redirectURL := "https://example.com", createdBy := 7,
                folderId := none, isActive := true, expirationDate := none,
                isDeleted := false, deletedAt := none }] :=
  c2_alias_uniqueness.1 (fun _ => true) [] [] 7 "promo1"
    { redirectURL := "example.com", customShortId := some "promo1" } [] 2 0
    { status := 201,
      links := [{ id := 2, shortId := "promo1", title := none,
                  redirectURL := "https://example.com", createdBy := 7,
                  folderId := none, isActive := true,
                  expirationDate := none, isDeleted := false,
                  deletedAt := none }] }
    (by decide) (by decide) (by decide) (by decide) (by decide)

/-- Counterexample for C2 as stated: with `"abcdefgh"` already stored, the
random draw `"ABCDEFGH"` passes the exact-match `URL.exists` check and is
persisted, leaving two links whose identifiers differ only in case. -/
theorem c2_random_case_variant_counterexample :
    UrlCtrl.handleCreateShortURL (fun _ => true)
      [{ id := 1, shortId := "abcdefgh", redirectURL := "https://e.com",
         createdBy := 7 }] [] 7
      { redirectURL := "example.com" } ["ABCDEFGH"] 2 0 =
      some { status := 201,
             links := [{ id := 1, shortId := "abcdefgh",
                         redirectURL := "https://e.com", createdBy := 7 },
                       { id := 2, shortId := "ABCDEFGH", title := none,
                         redirectURL := "https://example.com",
                         createdBy := 7, folderId := none, isActive := true,
                         expirationDate := none, isDeleted := false,
                         deletedAt := none }] } ∧
    ¬ CIUnique [{ id := 1, shortId := "abcdefgh",
                  redirectURL := "https://e.com", createdBy := 7 },
                { id := 2, shortId := "ABCDEFGH", title := none,
                  redirectURL := "https://example.com", createdBy := 7,
                  folderId := none, isActive := true,
                  expirationDate := none, isDeleted := false,
                  deletedAt := none }] := by
  constructor
  · decide
  · decide

/-- Claim C10: without a type filter the recycle-bin listing merges at most
10 deleted links and at most 10 deleted folders regardless of the caller's
`page`/`limit`, while the summary still reports the full per-type and
combined totals; the requested pagination is applied only when a type
filter is given (then the page size is the capped `limit`). -/
theorem c10_recyclebin_listing (links : List Link) (folders : List Folder)
    (u page limit : Nat) :
    (RecycleBin.handleListRecycleBinItems links folders u page limit
      none).items.countP (fun it => it.itemType == "url") ≤ 10 ∧
    (RecycleBin.handleListRecycleBinItems links folders u page limit
      none).items.countP (fun it => it.itemType == "folder") ≤ 10 ∧
    (RecycleBin.handleListRecycleBinItems links folders u page limit
      none).totalUrls =
      (links.filter (fun l => l.createdBy == u && l.isDeleted)).length ∧
    (RecycleBin.handleListRecycleBinItems links folders u page limit
      none).totalFolders =
      (folders.filter (fun f => f.createdBy == u && f.isDeleted)).length ∧
    (RecycleBin.handleListRecycleBinItems links folders u page limit
      none).total =
      (links.filter (fun l => l.createdBy == u && l.isDeleted)).length +
      (folders.filter (fun f => f.createdBy == u && f.isDeleted)).length ∧
    (RecycleBin.handleListRecycleBinItems links folders u page limit
      (some "url")).items.length ≤ min 100 (max 1 limit) ∧
    (RecycleBin.handleListRecycleBinItems links folders u page limit
      (some "folder")).items.length ≤ min 100 (max 1 limit) := by
  have hnone : RecycleBin.handleListRecycleBinItems links folders u page
      limit none =
      { status := 200,
        items := sortByDesc (fun it => it.deletedAt.getD 0)
          (((sortByDesc (fun l => l.deletedAt.getD 0)
              (links.filter (fun l =>
                l.createdBy == u && l.isDeleted))).take 10).map
            RecycleBin.fmtUrl ++
           ((sortByDesc (fun f => f.deletedAt.getD 0)
              (folders.filter (fun f =>
                f.createdBy == u && f.isDeleted))).take 10).map
            RecycleBin.fmtFolder),
        totalUrls := (links.filter (fun l =>
          l.createdBy == u && l.isDeleted)).length,
        totalFolders := (folders.filter (fun f =>
          f.createdBy == u && f.isDeleted)).length,
        total := (links.filter (fun l =>
          l.createdBy == u && l.isDeleted)).length +
          (folders.filter (fun f => f.createdBy == u && f.isDeleted)).length,
        currentPage := max 1 page,
        totalPages := ceilDiv ((links.filter (fun l =>
          l.createdBy == u && l.isDeleted)).length +
          (folders.filter (fun f =>
            f.createdBy == u && f.isDeleted)).length)
          (min 100 (max 1 limit)),
        totalCount := (links.filter (fun l =>
          l.createdBy == u && l.isDeleted)).length +
          (folders.filter (fun f => f.createdBy == u && f.isDeleted)).length,
        limit := min 100 (max 1 limit) } := rfl
  have hurl : RecycleBin.handleListRecycleBinItems links folders u page
      limit (some "url") =
      { status := 200,
        items := (((sortByDesc (fun l => l.deletedAt.getD 0)
            (links.filter (fun l =>
              l.createdBy == u && l.isDeleted))).drop
            ((max 1 page - 1) * min 100 (max 1 limit))).take
            (min 100 (max 1 limit))).map RecycleBin.fmtUrl,
        totalUrls := (links.filter (fun l =>
          l.createdBy == u && l.isDeleted)).length,
        totalFolders := 0,
        total := (links.filter (fun l =>
          l.createdBy == u && l.isDeleted)).length + 0,
        currentPage := max 1 page,
        totalPages := ceilDiv (links.filter (fun l =>
          l.createdBy == u && l.isDeleted)).length (min 100 (max 1 limit)),
        totalCount := (links.filter (fun l =>
          l.createdBy == u && l.isDeleted)).length,
        limit := min 100 (max 1 limit) } := rfl
  have hfol : RecycleBin.handleListRecycleBinItems links folders u page
      limit (some "folder") =
      { status := 200,
        items := (((sortByDesc (fun f => f.deletedAt.getD 0)
            (folders.filter (fun f =>
              f.createdBy == u && f.isDeleted))).drop
            ((max 1 page - 1) * min 100 (max 1 limit))).take
            (min 100 (max 1 limit))).map RecycleBin.fmtFolder,
        totalUrls := 0,
        totalFolders := (folders.filter (fun f =>
          f.createdBy == u && f.isDeleted)).length,
        total := 0 + (folders.filter (fun f =>
          f.createdBy == u && f.isDeleted)).length,
        currentPage := max 1 page,
        totalPages := ceilDiv (folders.filter (fun f =>
          f.createdBy == u && f.isDeleted)).length (min 100 (max 1 limit)),
        totalCount := (folders.filter (fun f =>
          f.createdBy == u && f.isDeleted)).length,
        limit := min 100 (max 1 limit) } := rfl
  refine ⟨?_, ?_, ?_, ?_, ?_, ?_, ?_⟩
  · rw [hnone]
    show List.countP _ (sortByDesc _ _) ≤ 10
    rw [(sortByDesc_perm _ _).countP_eq, List.countP_append,
      List.countP_map, List.countP_map]
    have h1 : List.countP ((fun it => it.itemType == "url") ∘
        RecycleBin.fmtUrl)
        ((sortByDesc (fun l => l.deletedAt.getD 0)
          (links.filter (fun l => l.createdBy == u && l.isDeleted))).take
            10) =
        ((sortByDesc (fun l => l.deletedAt.getD 0)
          (links.filter (fun l => l.createdBy == u && l.isDeleted))).take
            10).length :=
      List.countP_eq_length.mpr (fun a _ => rfl)
    have h2 : List.countP ((fun it => it.itemType == "url") ∘
        RecycleBin.fmtFolder)
        ((sortByDesc (fun f => f.deletedAt.getD 0)
          (folders.filter (fun f => f.createdBy == u && f.isDeleted))).take
            10) = 0 :=
      List.countP_eq_zero.mpr (fun a _ => by simp [RecycleBin.fmtFolder])
    rw [h1, h2, List.length_take]
    omega
  · rw [hnone]
    show List.countP _ (sortByDesc _ _) ≤ 10
    rw [(sortByDesc_perm _ _).countP_eq, List.countP_append,
      List.countP_map, List.countP_map]
    have h1 : List.countP ((fun it => it.itemType == "folder") ∘
        RecycleBin.fmtUrl)
        ((sortByDesc (fun l => l.deletedAt.getD 0)
          (links.filter (fun l => l.createdBy == u && l.isDeleted))).take
            10) = 0 :=
      List.countP_eq_zero.mpr (fun a _ => by simp [RecycleBin.fmtUrl])
    have h2 : List.countP ((fun it => it.itemType == "folder") ∘
        RecycleBin.fmtFolder)
        ((sortByDesc (fun f => f.deletedAt.getD 0)
          (folders.filter (fun f => f.createdBy == u && f.isDeleted))).take
            10) =
        ((sortByDesc (fun f => f.deletedAt.getD 0)
          (folders.filter (fun f => f.createdBy == u && f.isDeleted))).take
            10).length :=
      List.countP_eq_length.mpr (fun a _ => rfl)
    rw [h1, h2, List.length_take]
    omega
  · rw [hnone]
  · rw [hnone]
  · rw [hnone]
  · rw [hurl]
    show (List.map _ _).length ≤ _
    rw [List.length_map, List.length_take]
    omega
  · rw [hfol]
    show (List.map _ _).length ≤ _
    rw [List.length_map, List.length_take]
    omega
